import Mathlib

/-!
Shallow embedding of the estate pallet (src/pallets/estate/src/lib.rs) of the
Metaverse-Network repository: land-unit registry, estate registry, undeployed
land block inventory, staking ledger and round scheduler.

Modelling conventions:
* `AccountId`, `MetaverseId`, `EstateId`, `UndeployedLandBlockId` are `Nat`.
* Balances (`u128`) are `Nat` with explicit `% 2 ^ 128` where the source's
  arithmetic can wrap; checked arithmetic returns `Option`; saturating
  arithmetic clamps at the type bound.  The `u64` / `u32` counters likewise.
* Storage maps are association lists (first binding wins); `ValueQuery`
  storage reads use the default value (`0`, `(0, 0)`) when the key is absent.
* Dispatchable calls are `State → Except Err State`: Substrate extrinsics are
  transactional, so an error leaves the state unchanged and we return only
  the error.  The hook-internal `do_issue_undeployed_land_blocks` is modelled
  with its partial writes kept, since `on_initialize` ignores its `Result`.
* The external currency ledger is modelled by per-account free/reserved
  balances: `reserve` fails when free balance is insufficient, `unreserve`
  moves `min(amount, reserved)`, `deposit_into_existing` always succeeds
  (accounts are assumed to exist).
* The external auction service is a boolean oracle in the configuration.
-/

abbrev AccountId := Nat
abbrev MetaverseId := Nat
abbrev EstateId := Nat
abbrev UndeployedLandBlockId := Nat
abbrev Coord := Int × Int

def u32Mod : Nat := 2 ^ 32

def u64Mod : Nat := 2 ^ 64

def balMod : Nat := 2 ^ 128

/-- `u128::checked_add`. -/
def checkedAddBal (a b : Nat) : Option Nat :=
  if a + b < balMod then some (a + b) else none

/-- `u128::checked_sub`. -/
def checkedSubBal (a b : Nat) : Option Nat :=
  if b ≤ a then some (a - b) else none

/-- `u128::saturating_add`. -/
def satAddBal (a b : Nat) : Nat :=
  min (a + b) (balMod - 1)

/-- `u128::saturating_sub` (on `Nat`, truncated subtraction). -/
def satSubBal (a b : Nat) : Nat :=
  a - b

/-- Plain (unchecked) `u128` addition, as used by `+=` in
`update_stake_snapshot`: wraps modulo `2 ^ 128` in a release build. -/
def wrapAddBal (a b : Nat) : Nat :=
  (a + b) % balMod

/-- `u64::checked_add`. -/
def checkedAddU64 (a b : Nat) : Option Nat :=
  if a + b < u64Mod then some (a + b) else none

/-- `u64::checked_sub`. -/
def checkedSubU64 (a b : Nat) : Option Nat :=
  if b ≤ a then some (a - b) else none

/-- `u32::checked_sub`. -/
def checkedSubU32 (a b : Nat) : Option Nat :=
  if b ≤ a then some (a - b) else none

/-- Association-list lookup: the value of the first binding of `k`. -/
def alGet {K V : Type} [DecidableEq K] (l : List (K × V)) (k : K) : Option V :=
  (l.find? (fun p => decide (p.1 = k))).map (·.2)

/-- Association-list insert (`StorageMap::insert`): replaces any binding of `k`. -/
def alInsert {K V : Type} [DecidableEq K] (l : List (K × V)) (k : K) (v : V) :
    List (K × V) :=
  (k, v) :: l.filter (fun p => decide (p.1 ≠ k))

/-- Association-list removal (`StorageMap::remove`). -/
def alRemove {K V : Type} [DecidableEq K] (l : List (K × V)) (k : K) :
    List (K × V) :=
  l.filter (fun p => decide (p.1 ≠ k))

/-- `primitives::ItemId`, restricted to the variants this pallet uses. -/
inductive ItemId where
  | estate (estateId : EstateId)
  | landUnit (coordinate : Coord) (metaverseId : MetaverseId)
deriving DecidableEq, Repr

/-- `primitives::UndeployedLandBlockType`. -/
inductive UndeployedLandBlockType where
  | transferable
  | boundToAddress
deriving DecidableEq, Repr

/-- `primitives::UndeployedLandBlock` record. -/
structure UndeployedLandBlockRec where
  id : UndeployedLandBlockId
  numberLandUnits : Nat
  blockType : UndeployedLandBlockType
  approved : Option AccountId
  isFrozen : Bool
  owner : AccountId
deriving DecidableEq, Repr

/-- `primitives::staking::Bond`. -/
structure Bond where
  staker : AccountId
  amount : Nat
deriving DecidableEq, Repr

/-- `primitives::staking::StakeSnapshot`. -/
structure StakeSnapshot where
  stakers : List Bond
  totalBond : Nat
deriving DecidableEq, Repr

/-- Modelled from the spec: `primitives::staking::RoundInfo` is repository
code that is not under `src/`.  Per the spec's §3 Round entry it holds the
current index, the first block of the current round and the configured
minimum round length. -/
structure RoundInfo where
  current : Nat
  first : Nat
  length : Nat
deriving DecidableEq, Repr

/-- Modelled from the spec: `RoundInfo::should_update` is repository code not
under `src/`; the spec states the round "advances only when the elapsed block
distance since the round start reaches the configured minimum". -/
def RoundInfo.shouldUpdate (r : RoundInfo) (now : Nat) : Bool :=
  r.length ≤ now - r.first

/-- Modelled from the spec: `RoundInfo::update` is repository code not under
`src/`; advancing increments the index and restarts the round at the current
block. -/
def RoundInfo.update (r : RoundInfo) (now : Nat) : RoundInfo :=
  { current := r.current + 1, first := now, length := r.length }

/-- The pallet's `Error<T>` variants, plus the `DispatchError::Other` string
errors produced by checked counter arithmetic (`otherArith`) and the currency
collaborator's reserve failure (`insufficientBalance`). -/
inductive Err where
  | noPermission
  | noAvailableEstateId
  | insufficientFund
  | estateIdAlreadyExist
  | landUnitIsNotAvailable
  | landUnitIsOutOfBound
  | noMaxBoundSet
  | undeployedLandBlockNotFound
  | undeployedLandBlockIsNotTransferable
  | undeployedLandBlockDoesNotHaveEnoughLandUnits
  | alreadyOwnTheUndeployedLandBlock
  | undeployedLandBlockFreezed
  | undeployedLandBlockAlreadyFreezed
  | undeployedLandBlockNotFrozen
  | alreadyOwnTheEstate
  | alreadyOwnTheLandUnit
  | estateNotInAuction
  | landUnitNotInAuction
  | estateAlreadyInAuction
  | landUnitAlreadyInAuction
  | estateDoesNotExist
  | landUnitDoesNotExist
  | onlyFrozenUndeployedLandBlockCanBeDestroyed
  | belowMinimumStake
  | overflow
  | estateStakeAlreadyLeft
  | accountHasNoStake
  | otherArith
  | insufficientBalance
deriving DecidableEq, Repr

/-- The pallet's events (the constructors the modelled operations emit). -/
inductive Event where
  | newLandsMinted (who : AccountId) (m : MetaverseId) (cs : List Coord)
  | transferredLandUnit (m : MetaverseId) (c : Coord) (src dst : AccountId)
  | transferredEstate (e : EstateId) (src dst : AccountId)
  | newLandUnitMinted (who : AccountId) (m : MetaverseId) (c : Coord)
  | landBlockDeployed (who : AccountId) (m : MetaverseId)
      (b : UndeployedLandBlockId) (cs : List Coord)
  | undeployedLandBlockIssued (who : AccountId) (b : UndeployedLandBlockId)
  | estateDestroyed (e : EstateId) (who : AccountId)
  | landUnitsRemoved (e : EstateId) (who : AccountId) (cs : List Coord)
  | undeployedLandBlockBurnt (b : UndeployedLandBlockId)
  | newRound (first : Nat) (round : Nat) (maxIssuance : Nat)
  | stakeSnapshotUpdated (round : Nat) (total : Nat)
  | stakersPaid (round : Nat)
  | exitQueueCleared (round : Nat)
  | estateStakeIncreased (who : AccountId) (e : EstateId) (b : Nat)
  | estateStakeDecreased (who : AccountId) (e : EstateId) (b : Nat)
  | estateStakeLeft (who : AccountId) (e : EstateId)
  | stakingRewarded (who : AccountId) (b : Nat)
deriving DecidableEq, Repr

/-- The pallet's storage items, the external currency ledger's per-account
free/reserved balances, and an event log. -/
structure State where
  maxBounds : List (MetaverseId × (Int × Int))
  allLandUnitsCount : Nat
  totalUndeployedLandUnit : Nat
  landUnits : List ((MetaverseId × Coord) × AccountId)
  allEstatesCount : Nat
  estates : List (EstateId × List Coord)
  estateOwner : List ((AccountId × EstateId) × Unit)
  nextUndeployedLandBlockId : UndeployedLandBlockId
  undeployedLandBlocks : List (UndeployedLandBlockId × UndeployedLandBlockRec)
  undeployedLandBlocksOwner : List ((AccountId × UndeployedLandBlockId) × Unit)
  round : RoundInfo
  totalStake : Nat
  staked : List (Nat × Nat)
  exitQueue : List ((AccountId × EstateId) × Unit)
  atStake : List ((Nat × EstateId) × StakeSnapshot)
  estateStake : List ((EstateId × AccountId) × Nat)
  freeBal : List (AccountId × Nat)
  reservedBal : List (AccountId × Nat)
  events : List Event

/-- The pallet's `Config` constants and the external collaborators (auction
oracle, estate sub-account derivation, round issuance range).  The issuance
range stands for `round_issuance_range` of `rate.rs`, repository code not
under `src/`; per the spec §4.5 its exact curve is a configuration concern
external to this core, so its `ideal`/`max` outputs are configuration here. -/
structure Config where
  minimumStake : Nat
  rewardPaymentDelay : Nat
  minBlocksPerRound : Nat
  roundIssuanceIdeal : Nat
  roundIssuanceMax : Nat
  landTreasuryAccount : AccountId
  estateAccountOf : EstateId → AccountId
  checkItemInAuction : ItemId → Bool

/-- `EstateStake` read (`ValueQuery`: absent key reads as `0`). -/
def stakeOf (st : State) (e : EstateId) (a : AccountId) : Nat :=
  (alGet st.estateStake (e, a)).getD 0

/-- Free balance of an account in the currency collaborator. -/
def freeOf (st : State) (a : AccountId) : Nat :=
  (alGet st.freeBal a).getD 0

/-- Reserved balance of an account in the currency collaborator. -/
def reservedOf (st : State) (a : AccountId) : Nat :=
  (alGet st.reservedBal a).getD 0

/-- `Currency::reserve`: moves `amount` from free to reserved; fails when the
free balance is insufficient. -/
def reserveC (st : State) (a : AccountId) (amount : Nat) :
    Except Err State :=
  if amount ≤ freeOf st a then
    Except.ok { st with
      freeBal := alInsert st.freeBal a (freeOf st a - amount),
      reservedBal := alInsert st.reservedBal a (reservedOf st a + amount) }
  else Except.error Err.insufficientBalance

/-- `Currency::unreserve`: moves `min(amount, reserved)` back to free. -/
def unreserveC (st : State) (a : AccountId) (amount : Nat) : State :=
  { st with
    freeBal := alInsert st.freeBal a (freeOf st a + min amount (reservedOf st a)),
    reservedBal := alInsert st.reservedBal a (reservedOf st a - min amount (reservedOf st a)) }

/-- `Currency::deposit_into_existing`, modelled as always succeeding and
crediting the full amount (accounts are assumed to exist). -/
def depositC (st : State) (a : AccountId) (amount : Nat) : State :=
  { st with freeBal := alInsert st.freeBal a (freeOf st a + amount) }

/-- Append an event (`Self::deposit_event`). -/
def emit (st : State) (ev : Event) : State :=
  { st with events := st.events ++ [ev] }

/-- Error propagation of Rust's `?` operator: continue on `Ok`, short-circuit
on `Err`. -/
def chain (x : Except Err State) (g : State → Except Err State) :
    Except Err State :=
  match x with
  | Except.error e => Except.error e
  | Except.ok s => g s

/-- The coordinate bound check of `mint_land_unit` (src lines 1122-1126),
exactly the source's boolean expression. -/
def inMaxBound (max_bound : Int × Int) (c : Coord) : Bool :=
  (c.1 ≥ max_bound.1 && max_bound.2 ≥ c.1) && (c.2 ≥ max_bound.1 && max_bound.2 ≥ c.2)

/-- `Pallet::mint_land_unit` (src lines 1097-1130): bound-set check, then the
availability check driven by `existing_land_units`, then the bound check,
then the ownership insert. -/
def mint_land_unit (m : MetaverseId) (beneficiary : AccountId) (c : Coord)
    (existing_land_units : Bool) (st : State) : Except Err State :=
  if (alGet st.maxBounds m).isSome = false then Except.error Err.noMaxBoundSet
  else if (if existing_land_units then (alGet st.landUnits (m, c)).isSome = false
           else (alGet st.landUnits (m, c)).isSome) then
    Except.error Err.landUnitIsNotAvailable
  else if inMaxBound ((alGet st.maxBounds m).getD (0, 0)) c = false then
    Except.error Err.landUnitIsOutOfBound
  else
    Except.ok { st with landUnits := alInsert st.landUnits (m, c) beneficiary }

/-- `Pallet::set_total_land_unit` (src lines 1375-1390): checked add/sub on
the global land-unit counter. -/
def set_total_land_unit (total : Nat) (deduct : Bool) (st : State) :
    Except Err State :=
  if deduct then
    match checkedSubU64 st.allLandUnitsCount total with
    | none => Except.error Err.otherArith
    | some n => Except.ok { st with allLandUnitsCount := n }
  else
    match checkedAddU64 st.allLandUnitsCount total with
    | none => Except.error Err.otherArith
    | some n => Except.ok { st with allLandUnitsCount := n }

/-- `Pallet::set_total_undeployed_land_unit` (src lines 1357-1373): checked
add/sub on the global undeployed-unit counter. -/
def set_total_undeployed_land_unit (total : Nat) (deduct : Bool) (st : State) :
    Except Err State :=
  if deduct then
    match checkedSubU64 st.totalUndeployedLandUnit total with
    | none => Except.error Err.otherArith
    | some n => Except.ok { st with totalUndeployedLandUnit := n }
  else
    match checkedAddU64 st.totalUndeployedLandUnit total with
    | none => Except.error Err.otherArith
    | some n => Except.ok { st with totalUndeployedLandUnit := n }

/-- The `mint_land` extrinsic (src lines 331-356), origin check elided. -/
def mint_land (beneficiary : AccountId) (m : MetaverseId) (c : Coord)
    (st : State) : Except Err State :=
  chain (mint_land_unit m beneficiary c false st) (fun st1 =>
  chain (set_total_land_unit 1 false st1) (fun st2 =>
    let st3 := { st2 with landUnits := alInsert st2.landUnits (m, c) beneficiary }
    Except.ok (emit st3 (Event.newLandUnitMinted beneficiary m c))))

/-- `Pallet::do_transfer_landunit` (src lines 1322-1355). -/
def do_transfer_landunit (c : Coord) (src dst : AccountId) (m : MetaverseId)
    (st : State) : Except Err State :=
  match alGet st.landUnits (m, c) with
  | none => Except.error Err.noPermission
  | some owner =>
    if owner ≠ src then Except.error Err.noPermission
    else if src = dst then Except.error Err.alreadyOwnTheLandUnit
    else
      Except.ok (emit { st with landUnits := alInsert st.landUnits (m, c) dst }
        (Event.transferredLandUnit m c src dst))

/-- The `transfer_land` extrinsic (src lines 384-400): rejects land units the
auction oracle reports as in auction, then delegates. -/
def transfer_land (cfg : Config) (who dst : AccountId) (m : MetaverseId)
    (c : Coord) (st : State) : Except Err State :=
  if cfg.checkItemInAuction (ItemId.landUnit c m) then
    Except.error Err.landUnitAlreadyInAuction
  else do_transfer_landunit c who dst m st

/-- `Pallet::do_transfer_estate` (src lines 1294-1320). -/
def do_transfer_estate (e : EstateId) (src dst : AccountId) (st : State) :
    Except Err State :=
  if (alGet st.estateOwner (src, e)).isSome = false then
    Except.error Err.noPermission
  else if src = dst then Except.error Err.alreadyOwnTheEstate
  else
    Except.ok (emit { st with
        estateOwner := alInsert (alRemove st.estateOwner (src, e)) (dst, e) () }
      (Event.transferredEstate e src dst))

/-- The `transfer_estate` extrinsic (src lines 457-473): rejects estates the
auction oracle reports as in auction, then delegates. -/
def transfer_estate (cfg : Config) (who dst : AccountId) (e : EstateId)
    (st : State) : Except Err State :=
  if cfg.checkItemInAuction (ItemId.estate e) then
    Except.error Err.estateAlreadyInAuction
  else do_transfer_estate e who dst st

/-- The `dissolve_estate` extrinsic (src lines 696-745): auction check, estate
lookup, ownership check, estate and owner-record removal, checked decrement of
the estate counter, and reassignment of every member coordinate to the caller. -/
def dissolve_estate (cfg : Config) (who : AccountId) (e : EstateId)
    (m : MetaverseId) (st : State) : Except Err State :=
  if cfg.checkItemInAuction (ItemId.estate e) then
    Except.error Err.estateAlreadyInAuction
  else
    match alGet st.estates e with
    | none => Except.error Err.estateDoesNotExist
    | some land_units =>
      if (alGet st.estateOwner (who, e)).isSome = false then
        Except.error Err.noPermission
      else
        match checkedSubU64 st.allEstatesCount 1 with
        | none => Except.error Err.otherArith
        | some cnt =>
          let st1 := { st with
            estateOwner := alRemove st.estateOwner (who, e),
            estates := alRemove st.estates e,
            allEstatesCount := cnt,
            landUnits := land_units.foldl (fun lu c => alInsert lu (m, c) who)
              st.landUnits }
          Except.ok (emit st1 (Event.estateDestroyed e who))

/-- Outcome of `remove_land_unit_from_estate`: the source calls
`.position(..).unwrap()` on each supplied coordinate, so a coordinate missing
from the estate's member list is an unrecoverable fault (panic), not an error. -/
inductive ROutcome where
  | ok (st : State)
  | err (e : Err)
  | fault

/-- The per-coordinate loop of `remove_land_unit_from_estate` (src lines
836-850): locate the coordinate in the member list (`position` + `unwrap`),
remove it, and reassign the land unit to the caller.  `none` marks the
source's `unwrap` faulting on a missing coordinate. -/
def removeLoop (m : MetaverseId) (who : AccountId) :
    List Coord → List Coord → List ((MetaverseId × Coord) × AccountId) →
    Option (List Coord × List ((MetaverseId × Coord) × AccountId))
  | [], members, lu => some (members, lu)
  | c :: rest, members, lu =>
    match members.findIdx? (fun x => decide (x = c)) with
    | none => none
    | some i => removeLoop m who rest (members.eraseIdx i) (alInsert lu (m, c) who)

/-- The `remove_land_unit_from_estate` extrinsic (src lines 809-860). -/
def remove_land_unit_from_estate (cfg : Config) (who : AccountId)
    (e : EstateId) (m : MetaverseId) (land_units : List Coord) (st : State) :
    ROutcome :=
  if cfg.checkItemInAuction (ItemId.estate e) then
    ROutcome.err Err.estateAlreadyInAuction
  else
    match alGet st.estates e with
    | none => ROutcome.err Err.estateDoesNotExist
    | some members =>
      if (alGet st.estateOwner (who, e)).isSome = false then
        ROutcome.err Err.noPermission
      else
        match removeLoop m who land_units members st.landUnits with
        | none => ROutcome.fault
        | some (members', lu') =>
          ROutcome.ok (emit { st with
              estates := alInsert st.estates e members',
              landUnits := lu' }
            (Event.landUnitsRemoved e who land_units))

/-- `Pallet::do_burn_undeployed_land_block` (src lines 1213-1230): requires a
frozen block, deducts its remaining units from the global undeployed counter,
removes the block and its owner-index entry. -/
def do_burn_undeployed_land_block (b : UndeployedLandBlockId) (st : State) :
    Except Err State :=
  match alGet st.undeployedLandBlocks b with
  | none => Except.error Err.undeployedLandBlockNotFound
  | some info =>
    if info.isFrozen = false then
      Except.error Err.onlyFrozenUndeployedLandBlockCanBeDestroyed
    else
      chain (set_total_undeployed_land_unit info.numberLandUnits true st)
        (fun st1 =>
          let st2 := { st1 with
            undeployedLandBlocksOwner :=
              alRemove st1.undeployedLandBlocksOwner (info.owner, b),
            undeployedLandBlocks := alRemove st1.undeployedLandBlocks b }
          Except.ok (emit st2 (Event.undeployedLandBlockBurnt b)))

/-- The per-coordinate mint loop of `deploy_land_block` (src lines 508-510). -/
def mintCoordsLoop (m : MetaverseId) (who : AccountId) :
    List Coord → State → Except Err State
  | [], st => Except.ok st
  | c :: rest, st =>
    chain (mint_land_unit m who c false st) (fun st1 =>
      mintCoordsLoop m who rest st1)

/-- The `deploy_land_block` extrinsic (src lines 476-536): ownership and
unfrozen checks, the strict `number_land_units > coordinates.len()` supply
check, per-coordinate minting, the burn-or-decrement update of the block, and
the undeployed-counter deduction. -/
def deploy_land_block (who : AccountId) (b : UndeployedLandBlockId)
    (m : MetaverseId) (coordinates : List Coord) (st : State) :
    Except Err State :=
  match alGet st.undeployedLandBlocks b with
  | none => Except.error Err.undeployedLandBlockNotFound
  | some blk =>
    if blk.owner ≠ who then Except.error Err.noPermission
    else if blk.isFrozen then Except.error Err.undeployedLandBlockFreezed
    else
      let land_units_to_mint := coordinates.length
      if ¬ (blk.numberLandUnits > land_units_to_mint) then
        Except.error Err.undeployedLandBlockDoesNotHaveEnoughLandUnits
      else
        chain (mintCoordsLoop m who coordinates st) (fun st1 =>
        chain (set_total_land_unit coordinates.length false st1) (fun st2 =>
        chain (if blk.numberLandUnits = land_units_to_mint then
            do_burn_undeployed_land_block b st2
          else
            match checkedSubU32 blk.numberLandUnits land_units_to_mint with
            | none => Except.error Err.otherArith
            | some n =>
              Except.ok { st2 with undeployedLandBlocks :=
                (alInsert st2.undeployedLandBlocks b
                  { blk with numberLandUnits := n }) }) (fun st3 =>
        chain (set_total_undeployed_land_unit land_units_to_mint true st3)
          (fun st4 =>
            Except.ok (emit st4 (Event.landBlockDeployed who m b coordinates))))))

/-- `Pallet::get_new_undeployed_land_block_id` (src lines 1160-1168). -/
def get_new_undeployed_land_block_id (st : State) :
    Except Err (UndeployedLandBlockId × State) :=
  match checkedAddU64 st.nextUndeployedLandBlockId 1 with
  | none => Except.error Err.noAvailableEstateId
  | some nxt =>
    Except.ok (st.nextUndeployedLandBlockId,
      { st with nextUndeployedLandBlockId := nxt })

/-- The issuance loop of `do_issue_undeployed_land_blocks` (src lines
1256-1292), with partial writes kept on failure: `on_initialize` ignores the
`Result`, so a hook-time failure leaves the blocks issued so far in place. -/
def do_issue_loop (beneficiary : AccountId) (units : Nat)
    (t : UndeployedLandBlockType) : Nat → State → Option Err × State
  | 0, st => (none, st)
  | n + 1, st =>
    match get_new_undeployed_land_block_id st with
    | Except.error e => (some e, st)
    | Except.ok (bid, st1) =>
      let blk : UndeployedLandBlockRec :=
        { id := bid, numberLandUnits := units, blockType := t,
          approved := none, isFrozen := false, owner := beneficiary }
      let st2 := { st1 with
        undeployedLandBlocks := alInsert st1.undeployedLandBlocks bid blk,
        undeployedLandBlocksOwner :=
          alInsert st1.undeployedLandBlocksOwner (beneficiary, bid) () }
      match set_total_undeployed_land_unit units false st2 with
      | Except.error e => (some e, st2)
      | Except.ok st3 =>
        do_issue_loop beneficiary units t n
          (emit st3 (Event.undeployedLandBlockIssued beneficiary bid))

/-- `Pallet::do_issue_undeployed_land_blocks` as invoked from an extrinsic
(transactional: any failure reverts the whole call). -/
def do_issue_undeployed_land_blocks (beneficiary : AccountId) (count units : Nat)
    (t : UndeployedLandBlockType) (st : State) : Except Err State :=
  match do_issue_loop beneficiary units t count st with
  | (some e, _) => Except.error e
  | (none, st') => Except.ok st'

/-- The `bond_more` extrinsic (src lines 862-898). -/
def bond_more (cfg : Config) (who : AccountId) (e : EstateId) (more : Nat)
    (st : State) : Except Err State :=
  if (alGet st.estates e).isSome = false then Except.error Err.estateDoesNotExist
  else if (alGet st.estateOwner (who, e)).isSome = false then
    Except.error Err.noPermission
  else if (alGet st.exitQueue (who, e)).isSome then
    Except.error Err.estateStakeAlreadyLeft
  else
    match checkedAddBal (stakeOf st e who) more with
    | none => Except.error Err.overflow
    | some total =>
      if ¬ (total ≥ cfg.minimumStake) then Except.error Err.belowMinimumStake
      else
        chain (reserveC st who more) (fun st1 =>
          let st2 := { st1 with
            estateStake := alInsert st1.estateStake (e, who) total }
          let st3 := { st2 with totalStake := satAddBal st2.totalStake more }
          Except.ok (emit st3 (Event.estateStakeIncreased who e more)))

/-- The `bond_less` extrinsic (src lines 900-936). -/
def bond_less (cfg : Config) (who : AccountId) (e : EstateId) (less : Nat)
    (st : State) : Except Err State :=
  if (alGet st.estates e).isSome = false then Except.error Err.estateDoesNotExist
  else if (alGet st.estateOwner (who, e)).isSome = false then
    Except.error Err.noPermission
  else if (alGet st.exitQueue (who, e)).isSome then
    Except.error Err.estateStakeAlreadyLeft
  else
    match checkedSubBal (stakeOf st e who) less with
    | none => Except.error Err.overflow
    | some remaining =>
      if ¬ (remaining ≥ cfg.minimumStake) then Except.error Err.belowMinimumStake
      else
        let st1 := unreserveC st who less
        let st2 := { st1 with
          estateStake := alInsert st1.estateStake (e, who) remaining }
        let st3 := { st2 with totalStake := satSubBal st2.totalStake less }
        Except.ok (emit st3 (Event.estateStakeDecreased who e less))

/-- The `leave_staking` extrinsic (src lines 938-959). -/
def leave_staking (who : AccountId) (e : EstateId) (st : State) :
    Except Err State :=
  if (alGet st.estates e).isSome = false then Except.error Err.estateDoesNotExist
  else if (alGet st.exitQueue (who, e)).isSome then
    Except.error Err.estateStakeAlreadyLeft
  else if ¬ (stakeOf st e who > 0) then Except.error Err.accountHasNoStake
  else
    Except.ok (emit { st with exitQueue := alInsert st.exitQueue (who, e) () }
      (Event.estateStakeLeft who e))

/-- `Pallet::compute_issuance` (src lines 1030-1033). -/
def compute_issuance (staked : Nat) : Nat :=
  satAddBal staked staked

/-- The inner reward loop of `pay_stakers` (src lines 985-989): a nominal
one-unit deposit per recorded staker, ignoring the recorded `amount`. -/
def payBondsLoop : List Bond → State → State
  | [], st => st
  | b :: rest, st =>
    payBondsLoop rest (emit (depositC st b.staker 1) (Event.stakingRewarded b.staker 1))

/-- The outer loop of `pay_stakers` over the drained snapshots. -/
def paySnapshotsLoop : List ((Nat × EstateId) × StakeSnapshot) → State → State
  | [], st => st
  | (_, snap) :: rest, st => paySnapshotsLoop rest (payBondsLoop snap.stakers st)

/-- `Pallet::pay_stakers` (src lines 963-991): early return when
`next ≤ reward delay`, otherwise drain the snapshots of
`next - reward delay` and deposit a fixed one-unit reward per staker. -/
def pay_stakers (cfg : Config) (next : Nat) (st : State) : State :=
  if next ≤ cfg.rewardPaymentDelay then st
  else
    let round_to_payout := next - cfg.rewardPaymentDelay
    let _total_issuance :=
      compute_issuance ((alGet st.staked round_to_payout).getD 0)
    let drained := st.atStake.filter (fun p => decide (p.1.1 = round_to_payout))
    let kept := st.atStake.filter (fun p => decide (p.1.1 ≠ round_to_payout))
    paySnapshotsLoop drained { st with atStake := kept }

/-- The per-entry body of `clear_exit_queue` (src lines 995-1002): unreserve
the account's full current stake for the estate and remove the stake record. -/
def clearLoop : List ((AccountId × EstateId) × Unit) → State → State
  | [], st => st
  | ((a, e), _) :: rest, st =>
    let staked_amount := stakeOf st e a
    let st1 := unreserveC st a staked_amount
    clearLoop rest { st1 with estateStake := alRemove st1.estateStake (e, a) }

/-- `Pallet::clear_exit_queue` (src lines 994-1003): `drain()` empties the
whole queue, settling every entry. -/
def clear_exit_queue (st : State) : State :=
  clearLoop st.exitQueue { st with exitQueue := [] }

/-- The per-estate body of `update_stake_snapshot` (src lines 1008-1024):
collect the estate's stakers, accumulate the per-estate and grand totals with
the source's plain `+=` (wrapping addition), and record a snapshot when the
staker list is non-empty. -/
def snapshotEstateLoop (nextR : Nat) :
    List EstateId → Nat → State → Nat × State
  | [], total, st => (total, st)
  | e :: rest, total, st =>
    let entries := st.estateStake.filter (fun p => decide (p.1.1 = e))
    let stakers := entries.map (fun p => ({ staker := p.1.2, amount := p.2 } : Bond))
    let total_bond := entries.foldl (fun acc p => wrapAddBal acc p.2) 0
    let total' := entries.foldl (fun acc p => wrapAddBal acc p.2) total
    let st' :=
      if stakers.length > 0 then
        { st with atStake := (alInsert st.atStake (nextR, e)
          { stakers := stakers, totalBond := total_bond }) }
      else st
    snapshotEstateLoop nextR rest total' st'

/-- `Pallet::update_stake_snapshot` (src lines 1005-1028). -/
def update_stake_snapshot (nextR : Nat) (st : State) : Nat × State :=
  let (total, st') := snapshotEstateLoop nextR (st.estates.map (·.1)) 0 st
  (total, { st' with totalStake := total })

/-- `Hooks::on_initialize` (src lines 1038-1083): when the round trigger
fires, advance the round and run payout, exit-queue settlement, snapshot
rebuild and undeployed-block issuance in that order; otherwise do nothing. -/
def on_initialize (cfg : Config) (n : Nat) (st : State) : State :=
  let round := st.round
  if round.shouldUpdate n then
    let round' := round.update n
    let st1 := emit (pay_stakers cfg round'.current st)
      (Event.stakersPaid round'.current)
    let st2 := emit (clear_exit_queue st1) (Event.exitQueueCleared round'.current)
    let ts := update_stake_snapshot round'.current st2
    let st4 := { ts.2 with round := round' }
    let st5 := { st4 with staked := alInsert st4.staked round'.current st4.totalStake }
    let st6 := emit st5 (Event.stakeSnapshotUpdated round'.current ts.1)
    let iss := do_issue_loop cfg.landTreasuryAccount 100
      UndeployedLandBlockType.transferable cfg.roundIssuanceIdeal st6
    emit iss.2 (Event.newRound round'.first round'.current cfg.roundIssuanceMax)
  else st

namespace EstateTrait

/-- The `Estate` trait's `transfer_estate` (src lines 1468-1476): requires the
asset to BE in auction (`EstateNotInAuction` otherwise), then delegates. -/
def transfer_estate (cfg : Config) (e : EstateId) (src dst : AccountId)
    (st : State) : Except Err State :=
  if cfg.checkItemInAuction (ItemId.estate e) = false then
    Except.error Err.estateNotInAuction
  else do_transfer_estate e src dst st

/-- The `Estate` trait's `transfer_landunit` (src lines 1478-1490): requires
the land unit to BE in auction (`LandUnitNotInAuction` otherwise). -/
def transfer_landunit (cfg : Config) (c : Coord) (src : AccountId)
    (dst : AccountId × MetaverseId) (st : State) : Except Err State :=
  if cfg.checkItemInAuction (ItemId.landUnit c dst.2) = false then
    Except.error Err.landUnitNotInAuction
  else do_transfer_landunit c src dst.1 dst.2 st

end EstateTrait

/-- The round-advance pipeline of the spec's §4.5, written as the ordered
composition of the four embedded step functions: payout, exit-queue
settlement, snapshot rebuild, undeployed-block issuance. -/
def round_advance_sequence (cfg : Config) (n : Nat) (st : State) : State :=
  let r := st.round.update n
  let stPay := emit (pay_stakers cfg r.current st) (Event.stakersPaid r.current)
  let stExit := emit (clear_exit_queue stPay) (Event.exitQueueCleared r.current)
  let snap := update_stake_snapshot r.current stExit
  let stSnapA := { snap.2 with round := r }
  let stSnapB := { stSnapA with staked := alInsert stSnapA.staked r.current stSnapA.totalStake }
  let stSnap := emit stSnapB (Event.stakeSnapshotUpdated r.current snap.1)
  let stIssue := (do_issue_loop cfg.landTreasuryAccount 100
    UndeployedLandBlockType.transferable cfg.roundIssuanceIdeal stSnap).2
  emit stIssue (Event.newRound r.first r.current cfg.roundIssuanceMax)

/-- The staking invariant of the spec: every per-(estate, account) bonded
stake is either exactly zero or at least the configured minimum. -/
def stakeInvariant (cfg : Config) (st : State) : Prop :=
  ∀ e a, stakeOf st e a = 0 ∨ cfg.minimumStake ≤ stakeOf st e a

/-- The stake an account has pending in an explicit exit-queue fragment,
valued in a given state. -/
def qSum (q : List ((AccountId × EstateId) × Unit)) (st : State)
    (a : AccountId) : Nat :=
  ((q.filter (fun p => decide (p.1.1 = a))).map
    (fun p => stakeOf st p.1.2 p.1.1)).sum

/-- The total stake an account has pending in the exit queue of a state. -/
def queuedSum (st : State) (a : AccountId) : Nat :=
  qSum st.exitQueue st a

/-- The per-staker reward events `pay_stakers` emits for a drained snapshot
list: one fixed one-unit reward notification per recorded staker. -/
def rewardEvents (l : List ((Nat × EstateId) × StakeSnapshot)) :
    List Event :=
  l.flatMap (fun p => p.2.stakers.map (fun bo => Event.stakingRewarded bo.staker 1))

/-- How many one-unit rewards an account receives from the drained snapshots. -/
def rewardCount (l : List ((Nat × EstateId) × StakeSnapshot))
    (a : AccountId) : Nat :=
  (l.flatMap (fun p => p.2.stakers)).countP (fun bo => decide (bo.staker = a))

/-- The mathematical (unwrapped) grand total that `update_stake_snapshot`
intends to compute: per estate key, the sum of that estate's stakes. -/
def estateStakeTotalSum (st : State) : Nat :=
  (st.estates.map (fun q =>
    ((st.estateStake.filter (fun p => decide (p.1.1 = q.1))).map
      (fun p => p.2)).sum)).sum

/-- A state with all storage empty and round 1 starting at block 0 with a
5-block minimum round length (the genesis shape, src lines 203-220). -/
def emptyState : State :=
  { maxBounds := [], allLandUnitsCount := 0, totalUndeployedLandUnit := 0,
    landUnits := [], allEstatesCount := 0, estates := [], estateOwner := [],
    nextUndeployedLandBlockId := 0, undeployedLandBlocks := [],
    undeployedLandBlocksOwner := [],
    round := { current := 1, first := 0, length := 5 },
    totalStake := 0, staked := [], exitQueue := [], atStake := [],
    estateStake := [], freeBal := [], reservedBal := [], events := [] }

/-- A concrete configuration: minimum stake 10, reward delay 2 rounds, no
asset in auction. -/
def cfg1 : Config :=
  { minimumStake := 10, rewardPaymentDelay := 2, minBlocksPerRound := 5,
    roundIssuanceIdeal := 1, roundIssuanceMax := 2, landTreasuryAccount := 999,
    estateAccountOf := fun e => 1000 + e, checkItemInAuction := fun _ => false }

/-- A configuration whose auction oracle reports every asset as in auction. -/
def cfgAuc : Config := { cfg1 with checkItemInAuction := fun _ => true }

/-- A state where metaverse 0 has bound (0, 10) and no land unit exists. -/
def stBound : State := { emptyState with maxBounds := [(0, (0, 10))] }

/-- An unfrozen transferable undeployed block: id 0, 5 remaining units,
owner 7. -/
def blkFive : UndeployedLandBlockRec :=
  { id := 0, numberLandUnits := 5,
    blockType := UndeployedLandBlockType.transferable, approved := none,
    isFrozen := false, owner := 7 }

/-- A state holding `blkFive` with metaverse 0 bounded by (0, 10). -/
def stDeploy : State := { emptyState with
  maxBounds := [(0, (0, 10))],
  undeployedLandBlocks := [(0, blkFive)],
  undeployedLandBlocksOwner := [((7, 0), ())],
  nextUndeployedLandBlockId := 1, totalUndeployedLandUnit := 5 }

/-- A state where estate 3 exists with owner 4. -/
def stEstate : State := { emptyState with
  estates := [(3, [(0, 0)])], estateOwner := [((4, 3), ())],
  allEstatesCount := 1 }

/-- A state where estate 0 has two stakers holding `2 ^ 127` each, so the
true stake sum is exactly `2 ^ 128`. -/
def stWrap : State := { emptyState with
  estates := [(0, [(0, 0)])],
  estateStake := [((0, 1), 2 ^ 127), ((0, 2), 2 ^ 127)] }

/-- A state where estate 0 (owner 4) has member list [(0,0)] only. -/
def stRemove : State := { emptyState with
  estates := [(0, [(0, 0)])], estateOwner := [((4, 0), ())],
  allEstatesCount := 1 }

/-- A state where estate 0 (owner 4) carries a stake of 50 by account 4,
with 50 free and 50 reserved on account 4's balance. -/
def stStake : State := { emptyState with
  estates := [(0, [(0, 0)])], estateOwner := [((4, 0), ())],
  allEstatesCount := 1, estateStake := [((0, 4), 50)],
  freeBal := [(4, 50)], reservedBal := [(4, 50)], totalStake := 50 }

/-- `stStake` with account 4's exit from estate 0 already queued. -/
def stQueue : State := { stStake with exitQueue := [((4, 0), ())] }

/-- A state whose round-1 snapshot records staker 4 with amount 50. -/
def stPay : State := { emptyState with
  atStake := [((1, 0), StakeSnapshot.mk [Bond.mk 4 50] 50)],
  staked := [(1, 50)], freeBal := [(4, 100)] }

/-- A state where estate 0 (owner 4, members [(0,0),(0,1)] held by the
custodial account 1000) carries a stake of 50 by account 4. -/
def stDissolve : State := { emptyState with
  estates := [(0, [(0, 0), (0, 1)])], estateOwner := [((4, 0), ())],
  allEstatesCount := 1,
  landUnits := [((0, (0, 0)), 1000), ((0, (0, 1)), 1000)],
  estateStake := [((0, 4), 50)], reservedBal := [(4, 50)], totalStake := 50 }

/-- The state after account 4 dissolves estate 0 in `stDissolve`. -/
def stDissolved : State :=
  match dissolve_estate cfg1 4 0 0 stDissolve with
  | Except.ok s => s
  | Except.error _ => emptyState

/-- The successful result of account 4 bonding 20 more on estate 0 from
`stStake` (free balance 50 covers the reserve). -/
def stBondMore : State :=
  match bond_more cfg1 4 0 20 stStake with
  | Except.ok s => s
  | Except.error _ => emptyState
theorem alGet_cons_eq {K V : Type} [DecidableEq K] (p : K × V) (l : List (K × V))
    (k : K) (h : p.1 = k) : alGet (p :: l) k = some p.2 := by
  simp [alGet, List.find?, h]

theorem alGet_cons_ne {K V : Type} [DecidableEq K] (p : K × V) (l : List (K × V))
    (k : K) (h : ¬ p.1 = k) : alGet (p :: l) k = alGet l k := by
  simp only [alGet, List.find?]
  have hd : (decide (p.1 = k)) = false := by simp [h]
  rw [hd]

theorem alGet_filter_ne {K V : Type} [DecidableEq K] (l : List (K × V)) (k k' : K)
    (h : k' ≠ k) :
    alGet (l.filter (fun p => decide (p.1 ≠ k))) k' = alGet l k' := by
  induction l with
  | nil => rfl
  | cons p l ih =>
    by_cases hpk : p.1 = k
    · have hne : ¬ (p.1 = k') := by
        intro hh; exact h (by rw [← hh, hpk])
      rw [List.filter_cons_of_neg (by simp [hpk])]
      rw [ih, alGet_cons_ne p l k' hne]
    · rw [List.filter_cons_of_pos (by simp [hpk])]
      by_cases hpk' : p.1 = k'
      · rw [alGet_cons_eq p _ k' hpk', alGet_cons_eq p l k' hpk']
      · rw [alGet_cons_ne p _ k' hpk', alGet_cons_ne p l k' hpk']
        exact ih

theorem alGet_insert_eq {K V : Type} [DecidableEq K] (l : List (K × V)) (k : K)
    (v : V) : alGet (alInsert l k v) k = some v := by
  simp [alGet, alInsert, List.find?]

theorem alGet_insert_ne {K V : Type} [DecidableEq K] (l : List (K × V)) (k k' : K)
    (v : V) (h : k' ≠ k) : alGet (alInsert l k v) k' = alGet l k' := by
  unfold alInsert
  rw [alGet_cons_ne _ _ _ (by intro hh; exact h hh.symm)]
  exact alGet_filter_ne l k k' h

theorem alGet_remove_eq {K V : Type} [DecidableEq K] (l : List (K × V)) (k : K) :
    alGet (alRemove l k) k = none := by
  induction l with
  | nil => rfl
  | cons p l ih =>
    by_cases hpk : p.1 = k
    · rw [alRemove, List.filter_cons_of_neg (by simp [hpk])]
      exact ih
    · rw [alRemove, List.filter_cons_of_pos (by simp [hpk])]
      rw [alGet_cons_ne p _ k hpk]
      exact ih

theorem alGet_remove_ne {K V : Type} [DecidableEq K] (l : List (K × V)) (k k' : K)
    (h : k' ≠ k) : alGet (alRemove l k) k' = alGet l k' :=
  alGet_filter_ne l k k' h


/-- C3 counterexample: in a state where metaverse 0 has bound (0, 10) and no
land unit exists, minting the out-of-bound coordinate (11, 0) with
`expect_existing = true` fails with `LandUnitIsNotAvailable`, not
`OutOfBound`: the availability check precedes the bound check. -/
theorem mint_out_of_bound_error_kind_cex :
    alGet stBound.maxBounds 0 = some (0, 10) ∧
    inMaxBound (0, 10) (11, 0) = false ∧
    mint_land_unit 0 1 (11, 0) true stBound =
      Except.error Err.landUnitIsNotAvailable ∧
    Err.landUnitIsNotAvailable ≠ Err.landUnitIsOutOfBound :=
  ⟨rfl, by decide, rfl, by decide⟩

/-- C3 (amended): for a region with a bound set, minting a coordinate outside
the bound always fails and never mutates the registry, and the error kind is
`OutOfBound` exactly when the availability precondition (ownership presence
matching `expect_existing`) holds; otherwise it is `UnitUnavailable`. -/
theorem mint_land_unit_out_of_bound (m : MetaverseId) (b : AccountId) (c : Coord)
    (ex : Bool) (st : State)
    (hb : (alGet st.maxBounds m).isSome = true)
    (hob : inMaxBound ((alGet st.maxBounds m).getD (0, 0)) c = false) :
    (∃ err, mint_land_unit m b c ex st = Except.error err) ∧
    ((if ex then (alGet st.landUnits (m, c)).isSome = true
      else (alGet st.landUnits (m, c)).isSome = false) →
      mint_land_unit m b c ex st = Except.error Err.landUnitIsOutOfBound) := by
  rw [Prod.mk_zero_zero] at hob
  cases ex with
  | false =>
    constructor
    · by_cases hsome : (alGet st.landUnits (m, c)).isSome = true
      · exact ⟨Err.landUnitIsNotAvailable, by simp [mint_land_unit, hb, hsome]⟩
      · exact ⟨Err.landUnitIsOutOfBound, by simp [mint_land_unit, hb, hsome, hob]⟩
    · intro hav
      have hav2 : (alGet st.landUnits (m, c)).isSome = false := hav
      simp [mint_land_unit, hb, hav2, hob]
  | true =>
    constructor
    · by_cases hsome : (alGet st.landUnits (m, c)).isSome = true
      · exact ⟨Err.landUnitIsOutOfBound, by simp [mint_land_unit, hb, hsome, hob]⟩
      · exact ⟨Err.landUnitIsNotAvailable, by simp [mint_land_unit, hb, hsome]⟩
    · intro hav
      have hav2 : (alGet st.landUnits (m, c)).isSome = true := hav
      simp [mint_land_unit, hb, hav2, hob]

/-- C3 witness: minting the fresh out-of-bound coordinate (11, 0) in
metaverse 0 fails with `OutOfBound`. -/
theorem mint_out_of_bound_witness :
    mint_land_unit 0 1 (11, 0) false stBound =
      Except.error Err.landUnitIsOutOfBound := by
  have h := (mint_land_unit_out_of_bound 0 1 (11, 0) false stBound rfl (by decide)).2
  exact h (by simp [stBound, emptyState, alGet])

/-- C5 counterexample: with the auction oracle reporting estate 3 as in
auction, the `Estate`-trait `transfer_estate` entry point succeeds (it
requires the estate to BE in auction), so not every transfer path rejects
assets under auction. -/
theorem estate_trait_transfer_in_auction_cex :
    cfgAuc.checkItemInAuction (ItemId.estate 3) = true ∧
    ∃ st', EstateTrait.transfer_estate cfgAuc 3 4 5 stEstate = Except.ok st' :=
  ⟨rfl, ⟨_, rfl⟩⟩

/-- C5 (amended): the extrinsic transfer/dissolve calls reject assets the
auction oracle reports as in auction, while the `Estate`-trait entry points
invert the check, rejecting assets NOT in auction (they are the
auction-settlement path), all leaving state unchanged on failure. -/
theorem auction_lock_spec :
    (∀ cfg who dst m c st, cfg.checkItemInAuction (ItemId.landUnit c m) = true →
      transfer_land cfg who dst m c st =
        Except.error Err.landUnitAlreadyInAuction) ∧
    (∀ cfg who dst e st, cfg.checkItemInAuction (ItemId.estate e) = true →
      transfer_estate cfg who dst e st =
        Except.error Err.estateAlreadyInAuction) ∧
    (∀ cfg who e m st, cfg.checkItemInAuction (ItemId.estate e) = true →
      dissolve_estate cfg who e m st =
        Except.error Err.estateAlreadyInAuction) ∧
    (∀ cfg e src dst st, cfg.checkItemInAuction (ItemId.estate e) = false →
      EstateTrait.transfer_estate cfg e src dst st =
        Except.error Err.estateNotInAuction) ∧
    (∀ cfg c src dst st, cfg.checkItemInAuction (ItemId.landUnit c dst.2) = false →
      EstateTrait.transfer_landunit cfg c src dst st =
        Except.error Err.landUnitNotInAuction) := by
  refine ⟨?_, ?_, ?_, ?_, ?_⟩
  · intro cfg who dst m c st h
    simp [transfer_land, h]
  · intro cfg who dst e st h
    simp [transfer_estate, h]
  · intro cfg who e m st h
    simp [dissolve_estate, h]
  · intro cfg e src dst st h
    simp [EstateTrait.transfer_estate, h]
  · intro cfg c src dst st h
    simp [EstateTrait.transfer_landunit, h]

/-- C5 witness: the extrinsic `transfer_estate` rejects estate 3 while it is
in auction, and the trait `transfer_estate` rejects it while it is not. -/
theorem auction_lock_witness :
    transfer_estate cfgAuc 4 5 3 stEstate =
      Except.error Err.estateAlreadyInAuction ∧
    EstateTrait.transfer_estate cfg1 3 4 5 stEstate =
      Except.error Err.estateNotInAuction :=
  ⟨auction_lock_spec.2.1 cfgAuc 4 5 3 stEstate rfl,
   auction_lock_spec.2.2.2.1 cfg1 3 4 5 stEstate rfl⟩

/-- C9: removing coordinate (1, 1) — absent from estate 0's member list
[(0, 0)] — by the estate's recorded owner 4 drives the source's
`.position(..).unwrap()` into a panic (modelled as `ROutcome.fault`), not a
structured error value. -/
theorem remove_missing_coordinate_faults :
    alGet stRemove.estates 0 = some [(0, 0)] ∧
    alGet stRemove.estateOwner (4, 0) = some () ∧
    (((1 : Int), (1 : Int)) ∉ [((0 : Int), (0 : Int))]) ∧
    remove_land_unit_from_estate cfg1 4 0 0 [(1, 1)] stRemove = ROutcome.fault :=
  ⟨rfl, rfl, by decide, rfl⟩

theorem chain_ok {x : Except Err State} {g : State → Except Err State}
    {st' : State} (h : chain x g = Except.ok st') :
    ∃ s, x = Except.ok s ∧ g s = Except.ok st' := by
  cases x with
  | error e => exact Except.noConfusion h
  | ok s => exact ⟨s, rfl, h⟩

theorem mint_land_unit_ok_shape (m : MetaverseId) (b : AccountId) (c : Coord)
    (ex : Bool) (st st' : State) (h : mint_land_unit m b c ex st = Except.ok st') :
    st' = { st with landUnits := alInsert st.landUnits (m, c) b } := by
  unfold mint_land_unit at h
  by_cases h1 : (alGet st.maxBounds m).isSome = false
  · rw [if_pos h1] at h; exact absurd h (by simp)
  rw [if_neg h1] at h
  by_cases h2 : (if ex = true then (alGet st.landUnits (m, c)).isSome = false
      else (alGet st.landUnits (m, c)).isSome = true)
  · rw [if_pos h2] at h; exact absurd h (by simp)
  rw [if_neg h2] at h
  by_cases h3 : inMaxBound ((alGet st.maxBounds m).getD (0, 0)) c = false
  · rw [if_pos h3] at h; exact absurd h (by simp)
  rw [if_neg h3] at h
  cases h; rfl

theorem mint_land_unit_fresh_not_present (m : MetaverseId) (b : AccountId)
    (c : Coord) (st st' : State)
    (h : mint_land_unit m b c false st = Except.ok st') :
    (alGet st.landUnits (m, c)).isSome = false := by
  unfold mint_land_unit at h
  by_cases h1 : (alGet st.maxBounds m).isSome = false
  · rw [if_pos h1] at h; exact absurd h (by simp)
  rw [if_neg h1] at h
  by_cases h2 : (if false = true then (alGet st.landUnits (m, c)).isSome = false
      else (alGet st.landUnits (m, c)).isSome = true)
  · rw [if_pos h2] at h; exact absurd h (by simp)
  · have h2' : ¬ ((alGet st.landUnits (m, c)).isSome = true) := by
      intro hs
      exact h2 (by rw [if_neg (by simp)]; exact hs)
    simpa using h2'

theorem mintCoordsLoop_ok (m : MetaverseId) (who : AccountId) :
    ∀ (coords : List Coord) (st st' : State),
    mintCoordsLoop m who coords st = Except.ok st' →
    st'.allLandUnitsCount = st.allLandUnitsCount ∧
    st'.totalUndeployedLandUnit = st.totalUndeployedLandUnit ∧
    st'.undeployedLandBlocks = st.undeployedLandBlocks ∧
    st'.estateStake = st.estateStake ∧
    (∀ k v, alGet st.landUnits k = some v → alGet st'.landUnits k = some v) ∧
    (∀ c ∈ coords, alGet st'.landUnits (m, c) = some who) := by
  intro coords
  induction coords with
  | nil =>
    intro st st' h
    cases h
    exact ⟨rfl, rfl, rfl, rfl, fun k v hv => hv, by simp⟩
  | cons c rest ih =>
    intro st st' h
    unfold mintCoordsLoop at h
    obtain ⟨st1, hm, h'⟩ := chain_ok h
    have hrec := ih st1 st' h'
    have hshape := mint_land_unit_ok_shape m who c false st st1 hm
    have hnp := mint_land_unit_fresh_not_present m who c st st1 hm
    subst hshape
    refine ⟨hrec.1, hrec.2.1, hrec.2.2.1, hrec.2.2.2.1, ?_, ?_⟩
    · intro k v hv
      apply hrec.2.2.2.2.1 k v
      show alGet (alInsert st.landUnits (m, c) who) k = some v
      by_cases hk : k = (m, c)
      · subst hk
        rw [hv] at hnp
        simp at hnp
      · rw [alGet_insert_ne _ _ _ _ hk]
        exact hv
    · intro c' hc'
      cases hc' with
      | head _ =>
        apply hrec.2.2.2.2.1
        show alGet (alInsert st.landUnits (m, c) who) (m, c) = some who
        exact alGet_insert_eq _ _ _
      | tail _ hmem => exact hrec.2.2.2.2.2 c' hmem

theorem set_total_land_unit_add_ok (total : Nat) (st st' : State)
    (h : set_total_land_unit total false st = Except.ok st') :
    st' = { st with allLandUnitsCount := st.allLandUnitsCount + total } ∧
    st.allLandUnitsCount + total < u64Mod := by
  unfold set_total_land_unit checkedAddU64 at h
  by_cases hc : st.allLandUnitsCount + total < u64Mod
  · rw [if_neg (by simp), if_pos hc] at h
    cases h
    exact ⟨rfl, hc⟩
  · rw [if_neg (by simp), if_neg hc] at h
    exact absurd h (by simp)

theorem set_total_land_unit_sub_ok (total : Nat) (st st' : State)
    (h : set_total_land_unit total true st = Except.ok st') :
    st' = { st with allLandUnitsCount := st.allLandUnitsCount - total } ∧
    total ≤ st.allLandUnitsCount := by
  unfold set_total_land_unit checkedSubU64 at h
  by_cases hc : total ≤ st.allLandUnitsCount
  · rw [if_pos (by simp), if_pos hc] at h
    cases h
    exact ⟨rfl, hc⟩
  · rw [if_pos (by simp), if_neg hc] at h
    exact absurd h (by simp)

theorem set_total_undeployed_add_ok (total : Nat) (st st' : State)
    (h : set_total_undeployed_land_unit total false st = Except.ok st') :
    st' = { st with totalUndeployedLandUnit := st.totalUndeployedLandUnit + total } ∧
    st.totalUndeployedLandUnit + total < u64Mod := by
  unfold set_total_undeployed_land_unit checkedAddU64 at h
  by_cases hc : st.totalUndeployedLandUnit + total < u64Mod
  · rw [if_neg (by simp), if_pos hc] at h
    cases h
    exact ⟨rfl, hc⟩
  · rw [if_neg (by simp), if_neg hc] at h
    exact absurd h (by simp)

theorem set_total_undeployed_sub_ok (total : Nat) (st st' : State)
    (h : set_total_undeployed_land_unit total true st = Except.ok st') :
    st' = { st with totalUndeployedLandUnit := st.totalUndeployedLandUnit - total } ∧
    total ≤ st.totalUndeployedLandUnit := by
  unfold set_total_undeployed_land_unit checkedSubU64 at h
  by_cases hc : total ≤ st.totalUndeployedLandUnit
  · rw [if_pos (by simp), if_pos hc] at h
    cases h
    exact ⟨rfl, hc⟩
  · rw [if_pos (by simp), if_neg hc] at h
    exact absurd h (by simp)

/-- C4 counterexample: for block 0 holding exactly 5 remaining units, owned
by the caller and unfrozen, deploying exactly 5 coordinates is rejected with
`UndeployedLandBlockDoesNotHaveEnoughLandUnits` — the block is not burned:
the strict `number_land_units > count` check makes the burn branch
unreachable. -/
theorem deploy_equal_count_rejected_cex :
    Option.map UndeployedLandBlockRec.numberLandUnits
      (alGet stDeploy.undeployedLandBlocks 0) = some 5 ∧
    blkFive.owner = 7 ∧ blkFive.isFrozen = false ∧
    deploy_land_block 7 0 0 [(0, 0), (0, 1), (0, 2), (0, 3), (0, 4)] stDeploy =
      Except.error Err.undeployedLandBlockDoesNotHaveEnoughLandUnits :=
  ⟨rfl, rfl, rfl, rfl⟩

/-- C4 (amended): `deploy_land_block` succeeds only when the block's
remaining units strictly exceed the requested coordinate count; on success
the remaining units are decremented by the count (the block is never
burned through this path), the global undeployed counter decreases by the
count, the land counter increases by it, and each coordinate is minted to
the caller; a request for exactly the remaining units fails with
`UndeployedLandBlockDoesNotHaveEnoughLandUnits`. -/
theorem deploy_land_block_spec (who : AccountId) (b : UndeployedLandBlockId)
    (m : MetaverseId) (coords : List Coord) (st : State) :
    (∀ blk, alGet st.undeployedLandBlocks b = some blk → blk.owner = who →
      blk.isFrozen = false → blk.numberLandUnits = coords.length →
      deploy_land_block who b m coords st =
        Except.error Err.undeployedLandBlockDoesNotHaveEnoughLandUnits) ∧
    (∀ st', deploy_land_block who b m coords st = Except.ok st' →
      ∃ blk, alGet st.undeployedLandBlocks b = some blk ∧ blk.owner = who ∧
        blk.isFrozen = false ∧ coords.length < blk.numberLandUnits ∧
        Option.map UndeployedLandBlockRec.numberLandUnits
          (alGet st'.undeployedLandBlocks b) =
          some (blk.numberLandUnits - coords.length) ∧
        st'.totalUndeployedLandUnit = st.totalUndeployedLandUnit - coords.length ∧
        coords.length ≤ st.totalUndeployedLandUnit ∧
        st'.allLandUnitsCount = st.allLandUnitsCount + coords.length ∧
        (∀ c ∈ coords, alGet st'.landUnits (m, c) = some who)) := by
  constructor
  · intro blk hblk howner hfroz heq
    have hngt : ¬ (blk.numberLandUnits > coords.length) := by omega
    simp only [deploy_land_block, hblk]
    rw [if_neg (by simp [howner]), if_neg (by simp [hfroz]), if_pos hngt]
  · intro st' h
    unfold deploy_land_block at h
    cases hblk : alGet st.undeployedLandBlocks b with
    | none => rw [hblk] at h; exact Except.noConfusion h
    | some blk =>
      simp only [hblk] at h
      by_cases howner : blk.owner ≠ who
      · rw [if_pos howner] at h; exact Except.noConfusion h
      rw [if_neg howner] at h
      push_neg at howner
      by_cases hfroz : blk.isFrozen = true
      · rw [if_pos hfroz] at h; exact Except.noConfusion h
      rw [if_neg hfroz] at h
      by_cases hngt : ¬ (blk.numberLandUnits > coords.length)
      · rw [if_pos hngt] at h; exact Except.noConfusion h
      rw [if_neg hngt] at h
      push_neg at hngt
      obtain ⟨st1, hmc, h⟩ := chain_ok h
      obtain ⟨hc1, hc2, hc3, hc4, hc5, hc6⟩ :=
        mintCoordsLoop_ok m who coords st st1 hmc
      obtain ⟨st2, hs2, h⟩ := chain_ok h
      obtain ⟨hst2, hbound2⟩ := set_total_land_unit_add_ok _ _ _ hs2
      obtain ⟨st3, hs3, h⟩ := chain_ok h
      rw [if_neg (by omega)] at hs3
      have hsub : checkedSubU32 blk.numberLandUnits coords.length =
          some (blk.numberLandUnits - coords.length) := by
        unfold checkedSubU32
        rw [if_pos (Nat.le_of_lt hngt)]
      rw [hsub] at hs3
      have hst3 : st3 = { st2 with undeployedLandBlocks :=
          (alInsert st2.undeployedLandBlocks b
            { blk with numberLandUnits := blk.numberLandUnits - coords.length }) } := by
        cases hs3; rfl
      obtain ⟨st4, hs4, h⟩ := chain_ok h
      obtain ⟨hst4, hbound4⟩ := set_total_undeployed_sub_ok _ _ _ hs4
      have hst' : st' = emit st4 (Event.landBlockDeployed who m b coords) := by
        cases h; rfl
      subst hst' hst4 hst3 hst2
      refine ⟨blk, rfl, howner, by simpa using hfroz, hngt, ?_, ?_, ?_, ?_, ?_⟩
      · show Option.map UndeployedLandBlockRec.numberLandUnits
          (alGet (alInsert st1.undeployedLandBlocks b
            { blk with numberLandUnits := blk.numberLandUnits - coords.length }) b) = _
        rw [alGet_insert_eq]
        rfl
      · show st1.totalUndeployedLandUnit - coords.length = _
        rw [hc2]
      · show coords.length ≤ st.totalUndeployedLandUnit
        rw [← hc2]
        simpa using hbound4
      · show st1.allLandUnitsCount + coords.length = _
        rw [hc1]
      · intro c hc
        show alGet st1.landUnits (m, c) = some who
        exact hc6 c hc

/-- C4 witness: deploying exactly the 5 remaining units of block 0 fails
with the supply error, as the amended claim states. -/
theorem deploy_land_block_witness :
    deploy_land_block 7 0 0 [(0, 0), (0, 1), (0, 2), (0, 3), (0, 4)] stDeploy =
      Except.error Err.undeployedLandBlockDoesNotHaveEnoughLandUnits :=
  (deploy_land_block_spec 7 0 0 [(0, 0), (0, 1), (0, 2), (0, 3), (0, 4)]
    stDeploy).1 blkFive rfl rfl rfl rfl

theorem clearLoop_stakeInv (cfg : Config) :
    ∀ (q : List ((AccountId × EstateId) × Unit)) (st : State),
    stakeInvariant cfg st → stakeInvariant cfg (clearLoop q st) := by
  intro q
  induction q with
  | nil => intro st hinv; exact hinv
  | cons p rest ih =>
    intro st hinv
    obtain ⟨⟨a, e⟩, u⟩ := p
    show stakeInvariant cfg (clearLoop rest _)
    apply ih
    intro e' a'
    by_cases hk : ((e' : EstateId), (a' : AccountId)) = (e, a)
    · left
      show (alGet (alRemove (unreserveC st a (stakeOf st e a)).estateStake (e, a))
        (e', a')).getD 0 = 0
      rw [hk, alGet_remove_eq]
      rfl
    · have heq : stakeOf { unreserveC st a (stakeOf st e a) with
          estateStake := alRemove (unreserveC st a (stakeOf st e a)).estateStake (e, a) }
          e' a' = stakeOf st e' a' := by
        show (alGet (alRemove (unreserveC st a (stakeOf st e a)).estateStake (e, a))
          (e', a')).getD 0 = _
        rw [alGet_remove_ne _ _ _ hk]
        rfl
      rw [heq]
      exact hinv e' a'

/-- C1: in any state satisfying the staking invariant (every per-pair stake
is 0 or at least the configured minimum), `bond_more`, `bond_less` and the
exit-queue settlement preserve the invariant; `bond_more` fails with
`BelowMinimumStake` when the resulting total would be below the minimum,
`bond_less` fails with `BelowMinimumStake` when the remaining balance would
be below it, and (for a positive minimum) a successful `bond_less` never
leaves a stake of exactly zero. -/
theorem stake_minimum_invariant (cfg : Config) (st : State)
    (hinv : stakeInvariant cfg st) :
    (∀ who e more st', bond_more cfg who e more st = Except.ok st' →
        stakeInvariant cfg st') ∧
    (∀ who e less st', bond_less cfg who e less st = Except.ok st' →
        stakeInvariant cfg st' ∧
        (0 < cfg.minimumStake → stakeOf st' e who ≠ 0)) ∧
    stakeInvariant cfg (clear_exit_queue st) ∧
    (∀ who e more,
        (alGet st.estates e).isSome = true →
        (alGet st.estateOwner (who, e)).isSome = true →
        (alGet st.exitQueue (who, e)).isSome = false →
        stakeOf st e who + more < balMod →
        stakeOf st e who + more < cfg.minimumStake →
        bond_more cfg who e more st = Except.error Err.belowMinimumStake) ∧
    (∀ who e less,
        (alGet st.estates e).isSome = true →
        (alGet st.estateOwner (who, e)).isSome = true →
        (alGet st.exitQueue (who, e)).isSome = false →
        less ≤ stakeOf st e who →
        stakeOf st e who - less < cfg.minimumStake →
        bond_less cfg who e less st = Except.error Err.belowMinimumStake) := by
  refine ⟨?_, ?_, ?_, ?_, ?_⟩
  · intro who e more st' h
    unfold bond_more at h
    by_cases h1 : (alGet st.estates e).isSome = false
    · rw [if_pos h1] at h; exact Except.noConfusion h
    rw [if_neg h1] at h
    by_cases h2 : (alGet st.estateOwner (who, e)).isSome = false
    · rw [if_pos h2] at h; exact Except.noConfusion h
    rw [if_neg h2] at h
    by_cases h3 : (alGet st.exitQueue (who, e)).isSome = true
    · rw [if_pos h3] at h; exact Except.noConfusion h
    rw [if_neg h3] at h
    cases htot : checkedAddBal (stakeOf st e who) more with
    | none => rw [htot] at h; exact Except.noConfusion h
    | some total =>
      simp only [htot] at h
      by_cases h4 : ¬ (total ≥ cfg.minimumStake)
      · rw [if_pos h4] at h; exact Except.noConfusion h
      rw [if_neg h4] at h
      push_neg at h4
      obtain ⟨st1, hres, h⟩ := chain_ok h
      unfold reserveC at hres
      by_cases h5 : more ≤ freeOf st who
      · rw [if_pos h5] at hres
        cases hres
        cases h
        intro e' a'
        by_cases hk : ((e' : EstateId), (a' : AccountId)) = (e, who)
        · right
          show cfg.minimumStake ≤
            (alGet (alInsert st.estateStake (e, who) total) (e', a')).getD 0
          rw [hk, alGet_insert_eq]
          exact h4
        · show (alGet (alInsert st.estateStake (e, who) total) (e', a')).getD 0 = 0 ∨
            cfg.minimumStake ≤
              (alGet (alInsert st.estateStake (e, who) total) (e', a')).getD 0
          rw [alGet_insert_ne _ _ _ _ hk]
          exact hinv e' a'
      · rw [if_neg h5] at hres; exact Except.noConfusion hres
  · intro who e less st' h
    unfold bond_less at h
    by_cases h1 : (alGet st.estates e).isSome = false
    · rw [if_pos h1] at h; exact Except.noConfusion h
    rw [if_neg h1] at h
    by_cases h2 : (alGet st.estateOwner (who, e)).isSome = false
    · rw [if_pos h2] at h; exact Except.noConfusion h
    rw [if_neg h2] at h
    by_cases h3 : (alGet st.exitQueue (who, e)).isSome = true
    · rw [if_pos h3] at h; exact Except.noConfusion h
    rw [if_neg h3] at h
    cases hrem : checkedSubBal (stakeOf st e who) less with
    | none => rw [hrem] at h; exact Except.noConfusion h
    | some remaining =>
      simp only [hrem] at h
      by_cases h4 : ¬ (remaining ≥ cfg.minimumStake)
      · rw [if_pos h4] at h; exact Except.noConfusion h
      rw [if_neg h4] at h
      push_neg at h4
      cases h
      constructor
      · intro e' a'
        by_cases hk : ((e' : EstateId), (a' : AccountId)) = (e, who)
        · right
          show cfg.minimumStake ≤
            (alGet (alInsert (unreserveC st who less).estateStake (e, who)
              remaining) (e', a')).getD 0
          rw [hk, alGet_insert_eq]
          exact h4
        · show (alGet (alInsert (unreserveC st who less).estateStake (e, who)
              remaining) (e', a')).getD 0 = 0 ∨
            cfg.minimumStake ≤
              (alGet (alInsert (unreserveC st who less).estateStake (e, who)
                remaining) (e', a')).getD 0
          rw [alGet_insert_ne _ _ _ _ hk]
          exact hinv e' a'
      · intro hpos
        show ¬ ((alGet (alInsert (unreserveC st who less).estateStake (e, who)
          remaining) (e, who)).getD 0 = 0)
        rw [alGet_insert_eq]
        show ¬ (remaining = 0)
        intro h0
        exact absurd (Nat.lt_of_lt_of_le hpos (h0 ▸ h4)) (Nat.lt_irrefl 0)
  · show stakeInvariant cfg (clearLoop st.exitQueue { st with exitQueue := [] })
    apply clearLoop_stakeInv
    intro e a
    exact hinv e a
  · intro who e more hest hown hq hlt hbelow
    unfold bond_more
    rw [if_neg (by simp [hest]), if_neg (by simp [hown]), if_neg (by simp [hq])]
    have htot : checkedAddBal (stakeOf st e who) more =
        some (stakeOf st e who + more) := by
      unfold checkedAddBal
      rw [if_pos hlt]
    simp only [htot]
    rw [if_pos (not_le.mpr hbelow)]
  · intro who e less hest hown hq hle hbelow
    unfold bond_less
    rw [if_neg (by simp [hest]), if_neg (by simp [hown]), if_neg (by simp [hq])]
    have hrem : checkedSubBal (stakeOf st e who) less =
        some (stakeOf st e who - less) := by
      unfold checkedSubBal
      rw [if_pos hle]
    simp only [hrem]
    rw [if_pos (not_le.mpr hbelow)]

/-- C1 witness: with minimum stake 10 and a current stake of 50, unbonding
45 (which would leave 5, below the minimum) fails with `BelowMinimumStake`. -/
theorem stake_minimum_invariant_witness :
    bond_less cfg1 4 0 45 stStake = Except.error Err.belowMinimumStake := by
  have hinv : stakeInvariant cfg1 stStake := by
    intro e a
    by_cases hk : ((e : EstateId), (a : AccountId)) = (0, 4)
    · right
      show (10 : Nat) ≤ (alGet stStake.estateStake (e, a)).getD 0
      rw [hk]
      decide
    · left
      show (alGet stStake.estateStake (e, a)).getD 0 = 0
      have hnone : alGet stStake.estateStake (e, a) = none := by
        show alGet [(((0 : EstateId), (4 : AccountId)), (50 : Nat))] (e, a) = none
        rw [alGet_cons_ne _ _ _ (fun hh => hk hh.symm)]
        rfl
      rw [hnone]
      rfl
  exact (stake_minimum_invariant cfg1 stStake hinv).2.2.2.2 4 0 45 rfl rfl rfl
    (by decide) (by decide)

/-- C10: a successful `dissolve_estate` leaves the staking ledger fields
(`EstateStake`, `ExitQueue`, `TotalStake`) and the currency balances
untouched, removes the estate record, and thereafter `bond_more`,
`bond_less` and `leave_staking` on the dissolved estate all fail with
`EstateDoesNotExist`, so the reserved stake can no longer be reduced,
withdrawn or queued for exit. -/
theorem dissolve_estate_stake_frame (cfg : Config) (who : AccountId)
    (e : EstateId) (m : MetaverseId) (st st' : State)
    (h : dissolve_estate cfg who e m st = Except.ok st') :
    st'.estateStake = st.estateStake ∧
    st'.exitQueue = st.exitQueue ∧
    st'.totalStake = st.totalStake ∧
    st'.reservedBal = st.reservedBal ∧
    st'.freeBal = st.freeBal ∧
    alGet st'.estates e = none ∧
    (∀ who2 amt, bond_more cfg who2 e amt st' =
      Except.error Err.estateDoesNotExist) ∧
    (∀ who2 amt, bond_less cfg who2 e amt st' =
      Except.error Err.estateDoesNotExist) ∧
    (∀ who2, leave_staking who2 e st' = Except.error Err.estateDoesNotExist) := by
  unfold dissolve_estate at h
  by_cases ha : cfg.checkItemInAuction (ItemId.estate e) = true
  · rw [if_pos ha] at h; exact Except.noConfusion h
  rw [if_neg ha] at h
  cases hest : alGet st.estates e with
  | none => rw [hest] at h; exact Except.noConfusion h
  | some land_units =>
    simp only [hest] at h
    by_cases hown : (alGet st.estateOwner (who, e)).isSome = false
    · rw [if_pos hown] at h; exact Except.noConfusion h
    rw [if_neg hown] at h
    cases hcnt : checkedSubU64 st.allEstatesCount 1 with
    | none => rw [hcnt] at h; exact Except.noConfusion h
    | some cnt =>
      simp only [hcnt] at h
      cases h
      have hen : alGet (alRemove st.estates e) e = none := alGet_remove_eq _ _
      have hc : (alGet (alRemove st.estates e) e).isSome = false := by
        rw [hen]; rfl
      refine ⟨rfl, rfl, rfl, rfl, rfl, hen, ?_, ?_, ?_⟩
      · intro who2 amt
        simp [bond_more, emit, hc, hen]
      · intro who2 amt
        simp [bond_less, emit, hc, hen]
      · intro who2
        simp [leave_staking, emit, hc, hen]

/-- C10 witness: after account 4 dissolves estate 0, the stake record is
intact, the estate is gone, and every staking operation on estate 0 fails
with `EstateDoesNotExist`. -/
theorem dissolve_estate_stake_frame_witness :
    stDissolved.estateStake = stDissolve.estateStake ∧
    alGet stDissolved.estates 0 = none ∧
    bond_more cfg1 4 0 50 stDissolved = Except.error Err.estateDoesNotExist ∧
    bond_less cfg1 4 0 10 stDissolved = Except.error Err.estateDoesNotExist ∧
    leave_staking 4 0 stDissolved = Except.error Err.estateDoesNotExist := by
  have h := dissolve_estate_stake_frame cfg1 4 0 0 stDissolve stDissolved rfl
  exact ⟨h.1, h.2.2.2.2.2.1, h.2.2.2.2.2.2.1 4 50, h.2.2.2.2.2.2.2.1 4 10,
    h.2.2.2.2.2.2.2.2 4⟩

theorem freeOf_depositC (st : State) (s : AccountId) (amt : Nat) (a : AccountId) :
    freeOf (depositC st s amt) a =
      if a = s then freeOf st a + amt else freeOf st a := by
  by_cases ha : a = s
  · rw [if_pos ha]
    show (alGet (alInsert st.freeBal s (freeOf st s + amt)) a).getD 0 = _
    rw [ha, alGet_insert_eq]
    rfl
  · rw [if_neg ha]
    show (alGet (alInsert st.freeBal s (freeOf st s + amt)) a).getD 0 = _
    rw [alGet_insert_ne _ _ _ _ ha]
    rfl

theorem payBondsLoop_spec :
    ∀ (l : List Bond) (st : State),
    (payBondsLoop l st).events =
      st.events ++ l.map (fun bo => Event.stakingRewarded bo.staker 1) ∧
    (∀ a, freeOf (payBondsLoop l st) a =
      freeOf st a + l.countP (fun bo => decide (bo.staker = a))) ∧
    (payBondsLoop l st).estateStake = st.estateStake ∧
    (payBondsLoop l st).exitQueue = st.exitQueue ∧
    (payBondsLoop l st).reservedBal = st.reservedBal ∧
    (payBondsLoop l st).round = st.round ∧
    (payBondsLoop l st).staked = st.staked ∧
    (payBondsLoop l st).atStake = st.atStake := by
  intro l
  induction l with
  | nil =>
    intro st
    exact ⟨by simp [payBondsLoop], fun a => by simp [payBondsLoop], rfl, rfl,
      rfl, rfl, rfl, rfl⟩
  | cons b rest ih =>
    intro st
    have h := ih (emit (depositC st b.staker 1) (Event.stakingRewarded b.staker 1))
    refine ⟨?_, ?_, h.2.2.1, h.2.2.2.1, h.2.2.2.2.1, h.2.2.2.2.2.1,
      h.2.2.2.2.2.2.1, h.2.2.2.2.2.2.2⟩
    · show (payBondsLoop rest _).events = _
      rw [h.1]
      show (st.events ++ [Event.stakingRewarded b.staker 1]) ++ _ = _
      rw [List.append_assoc]
      rfl
    · intro a
      show freeOf (payBondsLoop rest _) a = _
      rw [h.2.1 a]
      have hd : freeOf (emit (depositC st b.staker 1)
          (Event.stakingRewarded b.staker 1)) a =
          if a = b.staker then freeOf st a + 1 else freeOf st a :=
        freeOf_depositC st b.staker 1 a
      rw [hd, List.countP_cons]
      by_cases ha : a = b.staker
      · have hp : (decide (b.staker = a)) = true := by
          subst ha; simp
        rw [if_pos ha, hp]
        have h1 : (if (true : Bool) = true then 1 else 0) = 1 := rfl
        rw [h1]
        omega
      · have hp : (decide (b.staker = a)) = false := by
          simp only [decide_eq_false_iff_not]
          exact fun hh => ha hh.symm
        rw [if_neg ha, hp]
        have h0 : (if (false : Bool) = true then 1 else 0) = 0 := rfl
        rw [h0]
        rfl

theorem paySnapshotsLoop_spec :
    ∀ (l : List ((Nat × EstateId) × StakeSnapshot)) (st : State),
    (paySnapshotsLoop l st).events = st.events ++ rewardEvents l ∧
    (∀ a, freeOf (paySnapshotsLoop l st) a = freeOf st a + rewardCount l a) ∧
    (paySnapshotsLoop l st).estateStake = st.estateStake ∧
    (paySnapshotsLoop l st).exitQueue = st.exitQueue ∧
    (paySnapshotsLoop l st).reservedBal = st.reservedBal ∧
    (paySnapshotsLoop l st).round = st.round ∧
    (paySnapshotsLoop l st).staked = st.staked ∧
    (paySnapshotsLoop l st).atStake = st.atStake := by
  intro l
  induction l with
  | nil =>
    intro st
    exact ⟨by simp [paySnapshotsLoop, rewardEvents],
      fun a => by simp [paySnapshotsLoop, rewardCount], rfl, rfl, rfl, rfl,
      rfl, rfl⟩
  | cons p rest ih =>
    intro st
    obtain ⟨key, snap⟩ := p
    have hb := payBondsLoop_spec snap.stakers st
    have h := ih (payBondsLoop snap.stakers st)
    refine ⟨?_, ?_, ?_, ?_, ?_, ?_, ?_, ?_⟩
    · show (paySnapshotsLoop rest _).events = _
      rw [h.1, hb.1, List.append_assoc]
      rfl
    · intro a
      show freeOf (paySnapshotsLoop rest _) a = _
      rw [h.2.1 a, hb.2.1 a]
      show _ = freeOf st a + rewardCount ((key, snap) :: rest) a
      unfold rewardCount
      rw [List.flatMap_cons, List.countP_append]
      dsimp only
      omega
    · show (paySnapshotsLoop rest _).estateStake = _
      rw [h.2.2.1, hb.2.2.1]
    · show (paySnapshotsLoop rest _).exitQueue = _
      rw [h.2.2.2.1, hb.2.2.2.1]
    · show (paySnapshotsLoop rest _).reservedBal = _
      rw [h.2.2.2.2.1, hb.2.2.2.2.1]
    · show (paySnapshotsLoop rest _).round = _
      rw [h.2.2.2.2.2.1, hb.2.2.2.2.2.1]
    · show (paySnapshotsLoop rest _).staked = _
      rw [h.2.2.2.2.2.2.1, hb.2.2.2.2.2.2.1]
    · show (paySnapshotsLoop rest _).atStake = _
      rw [h.2.2.2.2.2.2.2, hb.2.2.2.2.2.2.2]

/-- C6: payout skips entirely when the current round index is at most the
configured reward delay; otherwise it drains the snapshots of round
`current − delay` and, for every staker recorded there, deposits a fixed
one-unit reward (independent of the recorded stake amount) into the staker's
free balance and emits one `StakingRewarded` notification per staker. -/
theorem pay_stakers_spec (cfg : Config) (next : Nat) (st : State) :
    (next ≤ cfg.rewardPaymentDelay → pay_stakers cfg next st = st) ∧
    (¬ next ≤ cfg.rewardPaymentDelay →
      (pay_stakers cfg next st).atStake =
        st.atStake.filter
          (fun p => decide (p.1.1 ≠ next - cfg.rewardPaymentDelay)) ∧
      (pay_stakers cfg next st).events = st.events ++
        rewardEvents (st.atStake.filter
          (fun p => decide (p.1.1 = next - cfg.rewardPaymentDelay))) ∧
      (∀ a, freeOf (pay_stakers cfg next st) a = freeOf st a +
        rewardCount (st.atStake.filter
          (fun p => decide (p.1.1 = next - cfg.rewardPaymentDelay))) a) ∧
      (pay_stakers cfg next st).estateStake = st.estateStake ∧
      (pay_stakers cfg next st).exitQueue = st.exitQueue ∧
      (pay_stakers cfg next st).reservedBal = st.reservedBal ∧
      (pay_stakers cfg next st).round = st.round ∧
      (pay_stakers cfg next st).staked = st.staked) := by
  constructor
  · intro hle
    unfold pay_stakers
    rw [if_pos hle]
  · intro hgt
    have hps : pay_stakers cfg next st = paySnapshotsLoop
        (st.atStake.filter (fun p => decide (p.1.1 = next - cfg.rewardPaymentDelay)))
        { st with atStake := st.atStake.filter (fun p => decide (p.1.1 ≠ next - cfg.rewardPaymentDelay)) } := by
      unfold pay_stakers
      rw [if_neg hgt]
    refine ⟨?_, ?_, ?_, ?_, ?_, ?_, ?_, ?_⟩
    · rw [hps]
      exact (paySnapshotsLoop_spec _ _).2.2.2.2.2.2.2
    · rw [hps]
      exact (paySnapshotsLoop_spec _ _).1
    · intro a
      rw [hps]
      exact (paySnapshotsLoop_spec _ _).2.1 a
    · rw [hps]
      exact (paySnapshotsLoop_spec _ _).2.2.1
    · rw [hps]
      exact (paySnapshotsLoop_spec _ _).2.2.2.1
    · rw [hps]
      exact (paySnapshotsLoop_spec _ _).2.2.2.2.1
    · rw [hps]
      exact (paySnapshotsLoop_spec _ _).2.2.2.2.2.1
    · rw [hps]
      exact (paySnapshotsLoop_spec _ _).2.2.2.2.2.2.1

/-- C6 witness: with reward delay 2, round 1 skips payout entirely, and at
round 3 the recorded staker 4 (stake 50) receives exactly one unit — not a
stake-proportional amount — and one `StakingRewarded` event. -/
theorem pay_stakers_witness :
    pay_stakers cfg1 1 stPay = stPay ∧
    freeOf (pay_stakers cfg1 3 stPay) 4 = 101 ∧
    (pay_stakers cfg1 3 stPay).events =
      stPay.events ++ [Event.stakingRewarded 4 1] := by
  refine ⟨(pay_stakers_spec cfg1 1 stPay).1 (by decide), ?_, ?_⟩
  · exact ((pay_stakers_spec cfg1 3 stPay).2 (by decide)).2.2.1 4
  · exact ((pay_stakers_spec cfg1 3 stPay).2 (by decide)).2.1

theorem emit_estateStake (st : State) (ev : Event) :
    (emit st ev).estateStake = st.estateStake := rfl

theorem emit_exitQueue (st : State) (ev : Event) :
    (emit st ev).exitQueue = st.exitQueue := rfl

theorem emit_round (st : State) (ev : Event) :
    (emit st ev).round = st.round := rfl

theorem clearLoop_frame :
    ∀ (q : List ((AccountId × EstateId) × Unit)) (st : State),
    (clearLoop q st).exitQueue = st.exitQueue ∧
    (clearLoop q st).round = st.round ∧
    (clearLoop q st).estates = st.estates := by
  intro q
  induction q with
  | nil => intro st; exact ⟨rfl, rfl, rfl⟩
  | cons p rest ih =>
    intro st
    obtain ⟨⟨a, e⟩, u⟩ := p
    exact ⟨(ih _).1, (ih _).2.1, (ih _).2.2⟩

theorem clear_exit_queue_empties (st : State) :
    (clear_exit_queue st).exitQueue = [] := by
  unfold clear_exit_queue
  rw [(clearLoop_frame _ _).1]

theorem clear_exit_queue_round (st : State) :
    (clear_exit_queue st).round = st.round := by
  unfold clear_exit_queue
  rw [(clearLoop_frame _ _).2.1]

theorem snapshotEstateLoop_frame (r : Nat) :
    ∀ (keys : List EstateId) (total : Nat) (st : State),
    (snapshotEstateLoop r keys total st).2.exitQueue = st.exitQueue ∧
    (snapshotEstateLoop r keys total st).2.estateStake = st.estateStake ∧
    (snapshotEstateLoop r keys total st).2.round = st.round ∧
    (snapshotEstateLoop r keys total st).2.freeBal = st.freeBal ∧
    (snapshotEstateLoop r keys total st).2.reservedBal = st.reservedBal := by
  intro keys
  induction keys with
  | nil => intro total st; exact ⟨rfl, rfl, rfl, rfl, rfl⟩
  | cons e rest ih =>
    intro total st
    simp only [snapshotEstateLoop]
    split
    · exact ⟨(ih _ _).1, (ih _ _).2.1, (ih _ _).2.2.1, (ih _ _).2.2.2.1,
        (ih _ _).2.2.2.2⟩
    · exact ⟨(ih _ _).1, (ih _ _).2.1, (ih _ _).2.2.1, (ih _ _).2.2.2.1,
        (ih _ _).2.2.2.2⟩

theorem update_stake_snapshot_frame (r : Nat) (st : State) :
    (update_stake_snapshot r st).2.exitQueue = st.exitQueue ∧
    (update_stake_snapshot r st).2.estateStake = st.estateStake ∧
    (update_stake_snapshot r st).2.round = st.round := by
  have h := snapshotEstateLoop_frame r (st.estates.map (·.1)) 0 st
  unfold update_stake_snapshot
  rcases hsp : snapshotEstateLoop r (st.estates.map (·.1)) 0 st with ⟨total, st2⟩
  rw [hsp] at h
  simp only [hsp]
  exact ⟨h.1, h.2.1, h.2.2.1⟩

theorem update_stake_snapshot_exitQueue (r : Nat) (st : State) :
    (update_stake_snapshot r st).2.exitQueue = st.exitQueue :=
  (update_stake_snapshot_frame r st).1

theorem update_stake_snapshot_estateStake (r : Nat) (st : State) :
    (update_stake_snapshot r st).2.estateStake = st.estateStake :=
  (update_stake_snapshot_frame r st).2.1

theorem do_issue_loop_frame (ben : AccountId) (units : Nat)
    (t : UndeployedLandBlockType) :
    ∀ (k : Nat) (st : State),
    (do_issue_loop ben units t k st).2.exitQueue = st.exitQueue ∧
    (do_issue_loop ben units t k st).2.estateStake = st.estateStake ∧
    (do_issue_loop ben units t k st).2.round = st.round ∧
    (do_issue_loop ben units t k st).2.freeBal = st.freeBal ∧
    (do_issue_loop ben units t k st).2.reservedBal = st.reservedBal := by
  intro k
  induction k with
  | zero => intro st; exact ⟨rfl, rfl, rfl, rfl, rfl⟩
  | succ n ih =>
    intro st
    simp only [do_issue_loop, get_new_undeployed_land_block_id]
    cases hadd : checkedAddU64 st.nextUndeployedLandBlockId 1 with
    | none => exact ⟨rfl, rfl, rfl, rfl, rfl⟩
    | some nxt =>
      simp only [set_total_undeployed_land_unit]
      cases htot : checkedAddU64 st.totalUndeployedLandUnit units with
      | none => simp only [htot]; exact ⟨rfl, rfl, rfl, rfl, rfl⟩
      | some newTot =>
        simp only [htot]
        exact ⟨(ih _).1, (ih _).2.1, (ih _).2.2.1, (ih _).2.2.2.1,
          (ih _).2.2.2.2⟩

theorem do_issue_loop_exitQueue (ben : AccountId) (units : Nat)
    (t : UndeployedLandBlockType) (k : Nat) (st : State) :
    (do_issue_loop ben units t k st).2.exitQueue = st.exitQueue :=
  (do_issue_loop_frame ben units t k st).1

theorem do_issue_loop_estateStake (ben : AccountId) (units : Nat)
    (t : UndeployedLandBlockType) (k : Nat) (st : State) :
    (do_issue_loop ben units t k st).2.estateStake = st.estateStake :=
  (do_issue_loop_frame ben units t k st).2.1

theorem do_issue_loop_round (ben : AccountId) (units : Nat)
    (t : UndeployedLandBlockType) (k : Nat) (st : State) :
    (do_issue_loop ben units t k st).2.round = st.round :=
  (do_issue_loop_frame ben units t k st).2.2.1

theorem pay_stakers_frame (cfg : Config) (next : Nat) (st : State) :
    (pay_stakers cfg next st).exitQueue = st.exitQueue ∧
    (pay_stakers cfg next st).estateStake = st.estateStake ∧
    (pay_stakers cfg next st).reservedBal = st.reservedBal ∧
    (pay_stakers cfg next st).round = st.round := by
  unfold pay_stakers
  by_cases hle : next ≤ cfg.rewardPaymentDelay
  · rw [if_pos hle]
    exact ⟨rfl, rfl, rfl, rfl⟩
  · rw [if_neg hle]
    have h := paySnapshotsLoop_spec
      (st.atStake.filter (fun p => decide (p.1.1 = next - cfg.rewardPaymentDelay)))
      { st with atStake := st.atStake.filter (fun p => decide (p.1.1 ≠ next - cfg.rewardPaymentDelay)) }
    exact ⟨h.2.2.2.1, h.2.2.1, h.2.2.2.2.1, h.2.2.2.2.2.1⟩

/-- When the round trigger fires, the hook equals the explicit four-step
pipeline (payout, exit settlement, snapshot rebuild, issuance). -/
theorem on_initialize_advance (cfg : Config) (n : Nat) (st : State)
    (h : st.round.shouldUpdate n = true) :
    on_initialize cfg n st = round_advance_sequence cfg n st := by
  unfold on_initialize
  rw [if_pos h]
  rfl

theorem round_advance_exitQueue (cfg : Config) (n : Nat) (st : State) :
    (round_advance_sequence cfg n st).exitQueue = [] := by
  unfold round_advance_sequence
  rw [emit_exitQueue, do_issue_loop_exitQueue, emit_exitQueue]
  show (update_stake_snapshot (st.round.update n).current _).2.exitQueue = []
  rw [update_stake_snapshot_exitQueue, emit_exitQueue, clear_exit_queue_empties]

theorem round_advance_estateStake (cfg : Config) (n : Nat) (st : State) :
    (round_advance_sequence cfg n st).estateStake =
      (clear_exit_queue (emit (pay_stakers cfg (st.round.update n).current st)
        (Event.stakersPaid (st.round.update n).current))).estateStake := by
  unfold round_advance_sequence
  rw [emit_estateStake, do_issue_loop_estateStake, emit_estateStake]
  show (update_stake_snapshot (st.round.update n).current _).2.estateStake = _
  rw [update_stake_snapshot_estateStake, emit_estateStake]

theorem round_advance_round (cfg : Config) (n : Nat) (st : State) :
    (round_advance_sequence cfg n st).round = st.round.update n := by
  unfold round_advance_sequence
  rw [emit_round, do_issue_loop_round, emit_round]

theorem emit_reservedBal (st : State) (ev : Event) :
    (emit st ev).reservedBal = st.reservedBal := rfl

theorem emit_freeBal (st : State) (ev : Event) :
    (emit st ev).freeBal = st.freeBal := rfl

theorem freeOf_unreserveC (st : State) (s : AccountId) (amt : Nat) (a : AccountId) :
    freeOf (unreserveC st s amt) a =
      if a = s then freeOf st a + min amt (reservedOf st s) else freeOf st a := by
  by_cases ha : a = s
  · rw [if_pos ha]
    show (alGet (alInsert st.freeBal s (freeOf st s + min amt (reservedOf st s))) a).getD 0 = _
    rw [ha, alGet_insert_eq]
    rfl
  · rw [if_neg ha]
    show (alGet (alInsert st.freeBal s (freeOf st s + min amt (reservedOf st s))) a).getD 0 = _
    rw [alGet_insert_ne _ _ _ _ ha]
    rfl

theorem reservedOf_unreserveC (st : State) (s : AccountId) (amt : Nat)
    (a : AccountId) :
    reservedOf (unreserveC st s amt) a =
      if a = s then reservedOf st a - min amt (reservedOf st s)
      else reservedOf st a := by
  by_cases ha : a = s
  · rw [if_pos ha]
    show (alGet (alInsert st.reservedBal s
      (reservedOf st s - min amt (reservedOf st s))) a).getD 0 = _
    rw [ha, alGet_insert_eq]
    rfl
  · rw [if_neg ha]
    show (alGet (alInsert st.reservedBal s
      (reservedOf st s - min amt (reservedOf st s))) a).getD 0 = _
    rw [alGet_insert_ne _ _ _ _ ha]
    rfl

theorem stakeOf_congr (s1 s2 : State) (h : s1.estateStake = s2.estateStake)
    (e : EstateId) (a : AccountId) : stakeOf s1 e a = stakeOf s2 e a := by
  unfold stakeOf
  rw [h]

theorem qSum_congr (q : List ((AccountId × EstateId) × Unit)) (s1 s2 : State)
    (h : s1.estateStake = s2.estateStake) (a : AccountId) :
    qSum q s1 a = qSum q s2 a := by
  unfold qSum
  have hf : (fun p : ((AccountId × EstateId) × Unit) => stakeOf s1 p.1.2 p.1.1) =
      (fun p => stakeOf s2 p.1.2 p.1.1) := by
    funext p
    exact stakeOf_congr s1 s2 h _ _
  rw [hf]

theorem clearLoop_stake_zero :
    ∀ (q : List ((AccountId × EstateId) × Unit)) (st : State) (e : EstateId)
    (a : AccountId), stakeOf st e a = 0 → stakeOf (clearLoop q st) e a = 0 := by
  intro q
  induction q with
  | nil => intro st e a h; exact h
  | cons p rest ih =>
    intro st e a h
    obtain ⟨⟨a0, e0⟩, u⟩ := p
    apply ih
    by_cases hk : ((e : EstateId), (a : AccountId)) = (e0, a0)
    · show (alGet (alRemove (unreserveC st a0 (stakeOf st e0 a0)).estateStake
        (e0, a0)) (e, a)).getD 0 = 0
      rw [hk, alGet_remove_eq]
      rfl
    · show (alGet (alRemove (unreserveC st a0 (stakeOf st e0 a0)).estateStake
        (e0, a0)) (e, a)).getD 0 = 0
      rw [alGet_remove_ne _ _ _ hk]
      exact h

theorem clearLoop_spec :
    ∀ (q : List ((AccountId × EstateId) × Unit)) (st : State),
    (q.map (fun p => p.1)).Nodup →
    (∀ a, qSum q st a ≤ reservedOf st a) →
    (∀ p ∈ q, stakeOf (clearLoop q st) p.1.2 p.1.1 = 0) ∧
    (∀ a, freeOf (clearLoop q st) a = freeOf st a + qSum q st a ∧
          reservedOf (clearLoop q st) a = reservedOf st a - qSum q st a) := by
  intro q
  induction q with
  | nil =>
    intro st _ _
    refine ⟨by simp, fun a => ⟨?_, ?_⟩⟩
    · show freeOf st a = freeOf st a + qSum [] st a
      simp [qSum]
    · show reservedOf st a = reservedOf st a - qSum [] st a
      simp [qSum]
  | cons p rest ih =>
    intro st hnd hres
    obtain ⟨⟨a0, e0⟩, u⟩ := p
    rw [List.map_cons] at hnd
    obtain ⟨hhead, htail⟩ := List.nodup_cons.mp hnd
    have hne : ∀ p' ∈ rest, ¬ ((p'.1.2 : EstateId), (p'.1.1 : AccountId)) = (e0, a0) := by
      intro p' hp' heq
      apply hhead
      have h1 : p'.1.2 = e0 := congrArg Prod.fst heq
      have h2 : p'.1.1 = a0 := congrArg Prod.snd heq
      have hp1 : p'.1 = (a0, e0) := Prod.ext h2 h1
      rw [← hp1]
      exact List.mem_map_of_mem _ hp'
    have hqcons : ∀ a, qSum ((((a0, e0), u)) :: rest) st a =
        (if a = a0 then stakeOf st e0 a0 else 0) + qSum rest st a := by
      intro a
      unfold qSum
      by_cases ha : a = a0
      · rw [if_pos ha, List.filter_cons_of_pos (by simp [ha])]
        rw [List.map_cons, List.sum_cons]
      · rw [if_neg ha,
          List.filter_cons_of_neg (by simp; exact fun hh => ha hh.symm)]
        omega
    have hamtle : stakeOf st e0 a0 ≤ reservedOf st a0 := by
      have h := hres a0
      rw [hqcons a0, if_pos rfl] at h
      omega
    have hmin : min (stakeOf st e0 a0) (reservedOf st a0) = stakeOf st e0 a0 :=
      Nat.min_eq_left hamtle
    set stA := unreserveC st a0 (stakeOf st e0 a0) with hA
    set st2 := { stA with estateStake := alRemove stA.estateStake (e0, a0) } with hB
    have hstep : clearLoop ((((a0, e0), u)) :: rest) st = clearLoop rest st2 := rfl
    have hstake2 : st2.estateStake = alRemove st.estateStake (e0, a0) := rfl
    have hfree2 : ∀ a, freeOf st2 a =
        freeOf st a + (if a = a0 then stakeOf st e0 a0 else 0) := by
      intro a
      show freeOf stA a = _
      rw [hA, freeOf_unreserveC, hmin]
      by_cases ha : a = a0
      · rw [if_pos ha, if_pos ha]
      · rw [if_neg ha, if_neg ha]
        omega
    have hres2 : ∀ a, reservedOf st2 a =
        reservedOf st a - (if a = a0 then stakeOf st e0 a0 else 0) := by
      intro a
      show reservedOf stA a = _
      rw [hA, reservedOf_unreserveC, hmin]
      by_cases ha : a = a0
      · rw [if_pos ha, if_pos ha]
      · rw [if_neg ha, if_neg ha]
        omega
    have hstk : ∀ p' ∈ rest, stakeOf st2 p'.1.2 p'.1.1 = stakeOf st p'.1.2 p'.1.1 := by
      intro p' hp'
      unfold stakeOf
      rw [hstake2, alGet_remove_ne _ _ _ (hne p' hp')]
    have hq2 : ∀ a, qSum rest st2 a = qSum rest st a := by
      intro a
      unfold qSum
      apply congrArg List.sum
      apply List.map_congr_left
      intro p' hp'
      exact hstk p' (List.mem_filter.mp hp').1
    have hresle2 : ∀ a, qSum rest st2 a ≤ reservedOf st2 a := by
      intro a
      rw [hq2 a, hres2 a]
      have h := hres a
      rw [hqcons a] at h
      omega
    obtain ⟨ih1, ih2⟩ := ih st2 htail hresle2
    constructor
    · intro p' hp'
      cases hp' with
      | head =>
        rw [hstep]
        apply clearLoop_stake_zero
        show (alGet st2.estateStake (e0, a0)).getD 0 = 0
        rw [hstake2, alGet_remove_eq]
        rfl
      | tail _ hmem' =>
        rw [hstep]
        exact ih1 p' hmem'
    · intro a
      obtain ⟨ihf, ihr⟩ := ih2 a
      constructor
      · rw [hstep, ihf, hfree2 a, hq2 a, hqcons a]
        omega
      · rw [hstep, ihr, hres2 a, hq2 a, hqcons a]
        omega

/-- C2: settling the exit queue empties it completely (no partial draining),
removes every queued account's stake record for the queued estate, and
returns (unreserves) each queued account's full prior stake to its free
balance; after a triggered round advance the queue is likewise empty and
every previously queued stake record is gone. -/
theorem clear_exit_queue_spec (st : State)
    (hnodup : (st.exitQueue.map (fun p => p.1)).Nodup)
    (hres : ∀ a, queuedSum st a ≤ reservedOf st a) :
    (clear_exit_queue st).exitQueue = [] ∧
    (∀ p ∈ st.exitQueue, stakeOf (clear_exit_queue st) p.1.2 p.1.1 = 0) ∧
    (∀ a, freeOf (clear_exit_queue st) a = freeOf st a + queuedSum st a ∧
      reservedOf (clear_exit_queue st) a = reservedOf st a - queuedSum st a) ∧
    (∀ cfg n, st.round.shouldUpdate n = true →
      ( on_initialize cfg n st).exitQueue = [] ∧
      ∀ p ∈ st.exitQueue, stakeOf ( on_initialize cfg n st) p.1.2 p.1.1 = 0) := by
  have hmain := clearLoop_spec st.exitQueue { st with exitQueue := [] } hnodup
    (fun a => hres a)
  refine ⟨clear_exit_queue_empties st, hmain.1, hmain.2, ?_⟩
  intro cfg n htrig
  have hadv := on_initialize_advance cfg n st htrig
  constructor
  · rw [hadv]
    exact round_advance_exitQueue cfg n st
  · intro p hp
    rw [hadv]
    have hES := round_advance_estateStake cfg n st
    unfold stakeOf
    rw [hES]
    set st1 := emit (pay_stakers cfg (st.round.update n).current st)
      (Event.stakersPaid (st.round.update n).current) with h1
    have hpf := pay_stakers_frame cfg (st.round.update n).current st
    have hq1 : st1.exitQueue = st.exitQueue := by
      rw [h1, emit_exitQueue]
      exact hpf.1
    have hs1 : st1.estateStake = st.estateStake := by
      rw [h1, emit_estateStake]
      exact hpf.2.1
    have hrb1 : st1.reservedBal = st.reservedBal := by
      rw [h1, emit_reservedBal]
      exact hpf.2.2.1
    have hstep : clear_exit_queue st1 =
        clearLoop st.exitQueue { st1 with exitQueue := [] } := by
      unfold clear_exit_queue
      rw [hq1]
    rw [hstep]
    have hres1 : ∀ a, qSum st.exitQueue { st1 with exitQueue := [] } a ≤
        reservedOf { st1 with exitQueue := [] } a := by
      intro a
      have he : ({ st1 with exitQueue := ([] : List ((AccountId × EstateId) × Unit)) }).estateStake = st.estateStake := hs1
      rw [qSum_congr st.exitQueue _ st he a]
      have hrv : reservedOf { st1 with exitQueue := ([] : List ((AccountId × EstateId) × Unit)) } a = reservedOf st a := by
        unfold reservedOf
        show (alGet st1.reservedBal a).getD 0 = _
        rw [hrb1]
      rw [hrv]
      exact hres a
    obtain ⟨hz, _⟩ := clearLoop_spec st.exitQueue { st1 with exitQueue := [] }
      hnodup hres1
    exact hz p hp

/-- C2 witness: account 4's queued exit from estate 0 (stake 50) is settled
by the queue clearing — the queue empties, the stake record is removed, the
50 reserved units return to the free balance — and a triggered round advance
at block 5 drains the queue as well. -/
theorem clear_exit_queue_witness :
    (clear_exit_queue stQueue).exitQueue = [] ∧
    stakeOf (clear_exit_queue stQueue) 0 4 = 0 ∧
    freeOf (clear_exit_queue stQueue) 4 = 100 ∧
    reservedOf (clear_exit_queue stQueue) 4 = 0 ∧
    ( on_initialize cfg1 5 stQueue).exitQueue = [] := by
  have hnodup : (stQueue.exitQueue.map (fun p => p.1)).Nodup := by decide
  have hres : ∀ a, queuedSum stQueue a ≤ reservedOf stQueue a := by
    intro a
    by_cases ha : a = 4
    · subst ha
      decide
    · have hz : queuedSum stQueue a = 0 := by
        show qSum stQueue.exitQueue stQueue a = 0
        unfold qSum
        show (List.map (fun p => stakeOf stQueue p.1.2 p.1.1)
          (List.filter (fun p => decide (p.1.1 = a))
            [(((4 : AccountId), (0 : EstateId)), ())])).sum = 0
        rw [List.filter_cons_of_neg (by simp; exact fun hh => ha hh.symm)]
        rfl
      rw [hz]
      exact Nat.zero_le _
  have h := clear_exit_queue_spec stQueue hnodup hres
  refine ⟨h.1, ?_, ?_, ?_, ?_⟩
  · exact h.2.1 ((4, 0), ()) (by decide)
  · exact (h.2.2.1 4).1
  · exact (h.2.2.1 4).2
  · exact (h.2.2.2 cfg1 5 rfl).1

/-- C7: on a periodic trigger the round advances exactly when the elapsed
block distance since the round start reaches the configured minimum round
length; when it advances, the hook equals the ordered four-step pipeline —
payout, exit-queue settlement, snapshot rebuild, undeployed-block issuance —
executed once, the round index increments, the round restarts at the current
block, and the exit queue is empty; otherwise the state is unchanged. -/
theorem on_initialize_spec (cfg : Config) (n : Nat) (st : State) :
    (st.round.shouldUpdate n = false → on_initialize cfg n st = st) ∧
    (st.round.shouldUpdate n = true →
      on_initialize cfg n st = round_advance_sequence cfg n st ∧
      ( on_initialize cfg n st).round.current = st.round.current + 1 ∧
      ( on_initialize cfg n st).round.first = n ∧
      ( on_initialize cfg n st).exitQueue = []) := by
  constructor
  · intro hf
    unfold on_initialize
    rw [if_neg (by simp [hf])]
  · intro ht
    have hadv := on_initialize_advance cfg n st ht
    refine ⟨hadv, ?_, ?_, ?_⟩
    · rw [hadv, round_advance_round]
      rfl
    · rw [hadv, round_advance_round]
      rfl
    · rw [hadv]
      exact round_advance_exitQueue cfg n st

/-- C7 witness: with a 5-block minimum round length starting at block 0, the
trigger at block 3 leaves the state unchanged, while the trigger at block 5
advances to round 2 starting at block 5 and drains the exit queue. -/
theorem on_initialize_witness :
    on_initialize cfg1 3 stQueue = stQueue ∧
    ( on_initialize cfg1 5 stQueue).round.current = 2 ∧
    ( on_initialize cfg1 5 stQueue).round.first = 5 ∧
    ( on_initialize cfg1 5 stQueue).exitQueue = [] := by
  refine ⟨( on_initialize_spec cfg1 3 stQueue).1 rfl, ?_, ?_, ?_⟩
  · exact (( on_initialize_spec cfg1 5 stQueue).2 rfl).2.1
  · exact (( on_initialize_spec cfg1 5 stQueue).2 rfl).2.2.1
  · exact (( on_initialize_spec cfg1 5 stQueue).2 rfl).2.2.2

/-- C8 counterexample: with two stakers of `2 ^ 127` each on estate 0, the
snapshot rebuild's grand total — accumulated with the source's plain `+=` —
silently wraps to 0 instead of failing or saturating: the true sum is
`2 ^ 128`. -/
theorem snapshot_sum_wraps_cex :
    stakeOf stWrap 0 1 = 2 ^ 127 ∧
    stakeOf stWrap 0 2 = 2 ^ 127 ∧
    (update_stake_snapshot 1 stWrap).2.totalStake = 0 ∧
    (0 : Nat) ≠ 2 ^ 127 + 2 ^ 127 :=
  ⟨rfl, rfl, rfl, by decide⟩

theorem balMod_pos : 0 < balMod := by
  unfold balMod
  positivity

theorem foldl_wrapAddBal (l : List ((EstateId × AccountId) × Nat)) :
    ∀ acc, acc < balMod →
    l.foldl (fun a p => wrapAddBal a p.2) acc =
      (acc + (l.map (fun p => p.2)).sum) % balMod := by
  induction l with
  | nil =>
    intro acc hacc
    simp [Nat.mod_eq_of_lt hacc]
  | cons p rest ih =>
    intro acc hacc
    show rest.foldl _ (wrapAddBal acc p.2) = _
    rw [ih (wrapAddBal acc p.2) (Nat.mod_lt _ balMod_pos)]
    unfold wrapAddBal
    rw [List.map_cons, List.sum_cons, Nat.mod_add_mod, Nat.add_assoc]

theorem snapshotEstateLoop_total (r : Nat) :
    ∀ (keys : List EstateId) (total : Nat) (st : State), total < balMod →
    (snapshotEstateLoop r keys total st).1 =
      (total + (keys.map (fun e =>
        ((st.estateStake.filter (fun p => decide (p.1.1 = e))).map
          (fun p => p.2)).sum)).sum) % balMod := by
  intro keys
  induction keys with
  | nil =>
    intro total st htot
    show total = _
    simp [Nat.mod_eq_of_lt htot]
  | cons e rest ih =>
    intro total st htot
    simp only [snapshotEstateLoop]
    rw [foldl_wrapAddBal _ total htot]
    split
    · rw [ih _ _ (Nat.mod_lt _ balMod_pos)]
      rw [List.map_cons, List.sum_cons, Nat.mod_add_mod, Nat.add_assoc]
    · rw [ih _ _ (Nat.mod_lt _ balMod_pos)]
      rw [List.map_cons, List.sum_cons, Nat.mod_add_mod, Nat.add_assoc]

theorem update_stake_snapshot_total (r : Nat) (st : State) :
    (update_stake_snapshot r st).2.totalStake =
      estateStakeTotalSum st % balMod := by
  have h := snapshotEstateLoop_total r (st.estates.map (·.1)) 0 st balMod_pos
  unfold update_stake_snapshot
  rcases hsp : snapshotEstateLoop r (st.estates.map (·.1)) 0 st with ⟨total, st2⟩
  rw [hsp] at h
  simp only [hsp]
  show total = _
  have h2 : total = _ := h
  rw [h2, List.map_map, Nat.zero_add]
  rfl

/-- C8 (amended): the global land and undeployed-unit counters use checked
arithmetic — `set_total_land_unit` and `set_total_undeployed_land_unit` fail
with an arithmetic error on underflow and on `u64` overflow, and on success
perform the exact (non-wrapping) update; `bond_more`/`bond_less` update the
per-pair stake with checked arithmetic (failing with `Overflow` when the sum
would leave `u128`) and the advisory aggregate `TotalStake` with saturating
arithmetic. The snapshot rebuild, however, accumulates its grand total with
plain wrapping `+=`: the stored `TotalStake` is the true sum of all stakes
reduced modulo `2 ^ 128`, not a checked or saturated value. -/
theorem arithmetic_update_spec :
    (∀ total st, st.allLandUnitsCount < total →
      set_total_land_unit total true st = Except.error Err.otherArith) ∧
    (∀ total st, u64Mod ≤ st.allLandUnitsCount + total →
      set_total_land_unit total false st = Except.error Err.otherArith) ∧
    (∀ total st st', set_total_land_unit total true st = Except.ok st' →
      st'.allLandUnitsCount = st.allLandUnitsCount - total ∧
      total ≤ st.allLandUnitsCount) ∧
    (∀ total st st', set_total_land_unit total false st = Except.ok st' →
      st'.allLandUnitsCount = st.allLandUnitsCount + total ∧
      st.allLandUnitsCount + total < u64Mod) ∧
    (∀ total st, st.totalUndeployedLandUnit < total →
      set_total_undeployed_land_unit total true st = Except.error Err.otherArith) ∧
    (∀ total st, u64Mod ≤ st.totalUndeployedLandUnit + total →
      set_total_undeployed_land_unit total false st = Except.error Err.otherArith) ∧
    (∀ total st st', set_total_undeployed_land_unit total true st = Except.ok st' →
      st'.totalUndeployedLandUnit = st.totalUndeployedLandUnit - total ∧
      total ≤ st.totalUndeployedLandUnit) ∧
    (∀ total st st', set_total_undeployed_land_unit total false st = Except.ok st' →
      st'.totalUndeployedLandUnit = st.totalUndeployedLandUnit + total ∧
      st.totalUndeployedLandUnit + total < u64Mod) ∧
    (∀ cfg who e more st st', bond_more cfg who e more st = Except.ok st' →
      stakeOf st' e who = stakeOf st e who + more ∧
      stakeOf st e who + more < balMod ∧
      st'.totalStake = satAddBal st.totalStake more) ∧
    (∀ cfg who e more st,
      (alGet st.estates e).isSome = true →
      (alGet st.estateOwner (who, e)).isSome = true →
      (alGet st.exitQueue (who, e)).isSome = false →
      balMod ≤ stakeOf st e who + more →
      bond_more cfg who e more st = Except.error Err.overflow) ∧
    (∀ cfg who e less st st', bond_less cfg who e less st = Except.ok st' →
      stakeOf st' e who = stakeOf st e who - less ∧
      less ≤ stakeOf st e who ∧
      st'.totalStake = satSubBal st.totalStake less) ∧
    (∀ r st, (update_stake_snapshot r st).2.totalStake =
      estateStakeTotalSum st % balMod) := by
  refine ⟨?_, ?_, ?_, ?_, ?_, ?_, ?_, ?_, ?_, ?_, ?_, ?_⟩
  · intro total st hlt
    unfold set_total_land_unit checkedSubU64
    rw [if_pos (by simp), if_neg (by omega)]
  · intro total st hge
    unfold set_total_land_unit checkedAddU64
    rw [if_neg (by simp), if_neg (by omega)]
  · intro total st st' h
    obtain ⟨he, hle⟩ := set_total_land_unit_sub_ok total st st' h
    subst he
    exact ⟨rfl, hle⟩
  · intro total st st' h
    obtain ⟨he, hlt⟩ := set_total_land_unit_add_ok total st st' h
    subst he
    exact ⟨rfl, hlt⟩
  · intro total st hlt
    unfold set_total_undeployed_land_unit checkedSubU64
    rw [if_pos (by simp), if_neg (by omega)]
  · intro total st hge
    unfold set_total_undeployed_land_unit checkedAddU64
    rw [if_neg (by simp), if_neg (by omega)]
  · intro total st st' h
    obtain ⟨he, hle⟩ := set_total_undeployed_sub_ok total st st' h
    subst he
    exact ⟨rfl, hle⟩
  · intro total st st' h
    obtain ⟨he, hlt⟩ := set_total_undeployed_add_ok total st st' h
    subst he
    exact ⟨rfl, hlt⟩
  · intro cfg who e more st st' h
    unfold bond_more at h
    by_cases h1 : (alGet st.estates e).isSome = false
    · rw [if_pos h1] at h; exact Except.noConfusion h
    rw [if_neg h1] at h
    by_cases h2 : (alGet st.estateOwner (who, e)).isSome = false
    · rw [if_pos h2] at h; exact Except.noConfusion h
    rw [if_neg h2] at h
    by_cases h3 : (alGet st.exitQueue (who, e)).isSome = true
    · rw [if_pos h3] at h; exact Except.noConfusion h
    rw [if_neg h3] at h
    cases htot : checkedAddBal (stakeOf st e who) more with
    | none => rw [htot] at h; exact Except.noConfusion h
    | some total =>
      simp only [htot] at h
      by_cases h4 : ¬ (total ≥ cfg.minimumStake)
      · rw [if_pos h4] at h; exact Except.noConfusion h
      rw [if_neg h4] at h
      obtain ⟨st1, hres, h⟩ := chain_ok h
      unfold reserveC at hres
      by_cases h5 : more ≤ freeOf st who
      · rw [if_pos h5] at hres
        cases hres
        cases h
        unfold checkedAddBal at htot
        by_cases h6 : stakeOf st e who + more < balMod
        · rw [if_pos h6] at htot
          cases htot
          refine ⟨?_, h6, rfl⟩
          show (alGet (alInsert st.estateStake (e, who)
            (stakeOf st e who + more)) (e, who)).getD 0 =
            stakeOf st e who + more
          rw [alGet_insert_eq]
          rfl
        · rw [if_neg h6] at htot; exact Option.noConfusion htot
      · rw [if_neg h5] at hres; exact Except.noConfusion hres
  · intro cfg who e more st h1 h2 h3 hover
    unfold bond_more
    rw [if_neg (by simp [h1]), if_neg (by simp [h2]), if_neg (by simp [h3])]
    unfold checkedAddBal
    rw [if_neg (not_lt.mpr hover)]
  · intro cfg who e less st st' h
    unfold bond_less at h
    by_cases h1 : (alGet st.estates e).isSome = false
    · rw [if_pos h1] at h; exact Except.noConfusion h
    rw [if_neg h1] at h
    by_cases h2 : (alGet st.estateOwner (who, e)).isSome = false
    · rw [if_pos h2] at h; exact Except.noConfusion h
    rw [if_neg h2] at h
    by_cases h3 : (alGet st.exitQueue (who, e)).isSome = true
    · rw [if_pos h3] at h; exact Except.noConfusion h
    rw [if_neg h3] at h
    cases hrem : checkedSubBal (stakeOf st e who) less with
    | none => rw [hrem] at h; exact Except.noConfusion h
    | some remaining =>
      simp only [hrem] at h
      by_cases h4 : ¬ (remaining ≥ cfg.minimumStake)
      · rw [if_pos h4] at h; exact Except.noConfusion h
      rw [if_neg h4] at h
      cases h
      unfold checkedSubBal at hrem
      by_cases h5 : less ≤ stakeOf st e who
      · rw [if_pos h5] at hrem
        cases hrem
        refine ⟨?_, h5, rfl⟩
        show (alGet (alInsert (unreserveC st who less).estateStake (e, who)
          (stakeOf st e who - less)) (e, who)).getD 0 =
          stakeOf st e who - less
        rw [alGet_insert_eq]
        rfl
      · rw [if_neg h5] at hrem; exact Option.noConfusion hrem
  · intro r st
    exact update_stake_snapshot_total r st

/-- C8 witness: concrete instances of the amended statement — deducting 5
land units from an empty ledger fails with an arithmetic error, bonding 20
more from `stStake` raises the pair's stake from 50 to 70, and the snapshot
rebuild on the two-staker overflow state stores the modular total. -/
theorem arithmetic_update_witness :
    set_total_land_unit 5 true emptyState = Except.error Err.otherArith ∧
    set_total_undeployed_land_unit 3 true emptyState = Except.error Err.otherArith ∧
    stakeOf stBondMore 0 4 = stakeOf stStake 0 4 + 20 ∧
    (update_stake_snapshot 1 stWrap).2.totalStake =
      estateStakeTotalSum stWrap % balMod :=
  ⟨arithmetic_update_spec.1 5 emptyState (by decide),
   arithmetic_update_spec.2.2.2.2.1 3 emptyState (by decide),
   (arithmetic_update_spec.2.2.2.2.2.2.2.2.1 cfg1 4 0 20 stStake stBondMore
     rfl).1,
   arithmetic_update_spec.2.2.2.2.2.2.2.2.2.2.2 1 stWrap⟩
